import Mathlib

/-!
Verification of the deep-eye outbound request layer and report synthesizer.

Shallow embedding of two Python source files:
  src/utils/http_client.py   (class HTTPClient: resilient HTTP client)
  src/core/report_generator.py (class ReportGenerator: JSON/HTML/PDF reports)

Modelling conventions:
  - Python dict values appearing in scan results are embedded as the
    JSON-like inductive JVal (the report code only ever serializes them,
    looks fields up, or renders them to text; floats do not occur in the
    claims and are not modelled).
  - The standard-library collaborators that the source configures and whose
    behaviour the claims depend on are embedded from their documented
    semantics: json.dump/json.load (2-space indent printing, recursive
    descent parsing), urllib3.util.retry.Retry as mounted by HTTPClient
    (total=max_retries, status_forcelist=[429,500,502,503,504],
    allowed_methods=[HEAD,GET,OPTIONS,POST], raise_on_status default true),
    requests session header merging (case-insensitive, per-call wins), and
    Python str.lower / str.replace / sorted (a stable sort, embedded as the
    stable List.mergeSort).
  - File I/O is embedded as a state FS : path -> Option content together
    with an environment oracle saying which paths are writable and whether
    the external HTML-to-PDF conversion succeeds; a raised Python exception
    is an explicit error value paired with the filesystem state at raise
    time.
-/

namespace DeepEye

/-! ### JSON values (the scan-results data the report generator consumes) -/

/-- JSON-like Python values: None, bool, int, str, list, dict. -/
inductive JVal where
  | null
  | bool (b : Bool)
  | int (n : Int)
  | str (s : String)
  | arr (xs : List JVal)
  | obj (fs : List (String × JVal))

/-- Left brace character, kept out of string literals. -/
def lbrace : Char := Char.ofNat 123

/-- Right brace character, kept out of string literals. -/
def rbrace : Char := Char.ofNat 125

/-- Decimal digit character, as Python int printing produces. -/
def digitChar (d : Nat) : Char :=
  match d with
  | 0 => '0' | 1 => '1' | 2 => '2' | 3 => '3' | 4 => '4'
  | 5 => '5' | 6 => '6' | 7 => '7' | 8 => '8' | 9 => '9'
  | _ => '0'

/-- Lowercase hexadecimal digit, as json.dump \u escapes produce. -/
def hexDig (d : Nat) : Char :=
  match d with
  | 0 => '0' | 1 => '1' | 2 => '2' | 3 => '3' | 4 => '4'
  | 5 => '5' | 6 => '6' | 7 => '7' | 8 => '8' | 9 => '9'
  | 10 => 'a' | 11 => 'b' | 12 => 'c' | 13 => 'd' | 14 => 'e' | 15 => 'f'
  | _ => '0'

/-- Four lowercase hex digits of a code point, as in a \uXXXX escape. -/
def hex4 (n : Nat) : List Char :=
  [hexDig (n / 4096 % 16), hexDig (n / 256 % 16), hexDig (n / 16 % 16), hexDig (n % 16)]

/-- Decimal digits of a positive number, most significant first
    (fuel-based so that it evaluates by kernel reduction). -/
def natCharsAux : Nat → Nat → List Char
  | 0, _ => []
  | fuel + 1, n => if n = 0 then [] else natCharsAux fuel (n / 10) ++ [digitChar (n % 10)]

/-- Decimal rendering of a natural number, as Python prints ints. -/
def natChars (n : Nat) : List Char :=
  if n = 0 then ['0'] else natCharsAux (n + 1) n

/-- json.dump escaping of one character with ensure_ascii (the default):
    double quote, backslash and the control shorthands get two-character
    escapes, every other character outside 0x20..0x7e becomes \uXXXX
    (a surrogate pair above 0xFFFF). -/
def escChar (c : Char) : List Char :=
  if c = '"' then ['\\', '"']
  else if c = '\\' then ['\\', '\\']
  else if c = '\n' then ['\\', 'n']
  else if c = '\r' then ['\\', 'r']
  else if c = '\t' then ['\\', 't']
  else if c.toNat = 8 then ['\\', 'b']
  else if c.toNat = 12 then ['\\', 'f']
  else if c.toNat < 32 ∨ 126 < c.toNat then
    if c.toNat < 65536 then '\\' :: 'u' :: hex4 c.toNat
    else '\\' :: 'u' :: hex4 (55296 + (c.toNat - 65536) / 1024) ++
         '\\' :: 'u' :: hex4 (56320 + (c.toNat - 65536) % 1024)
  else [c]

/-- json.dump escaping of a whole string body. -/
def escList : List Char → List Char
  | [] => []
  | c :: cs => escChar c ++ escList cs

/-- Indentation: n spaces. -/
def indentChars (n : Nat) : List Char := List.replicate n ' '

mutual

/-- Embeds json.dump(v, f, indent=2) at nesting level lvl: every container
    element on its own line indented two spaces per level, item separator
    a comma plus newline, key separator a colon plus space, empty
    containers printed inline. -/
def printJ : Nat → JVal → List Char
  | _, .null => "null".data
  | _, .bool true => "true".data
  | _, .bool false => "false".data
  | _, .int (.ofNat m) => natChars m
  | _, .int (.negSucc m) => '-' :: natChars (m + 1)
  | _, .str s => '"' :: (escList s.data ++ ['"'])
  | _, .arr [] => ['[', ']']
  | lvl, .arr (x :: xs) =>
      '[' :: '\n' :: (printItems lvl (x :: xs) ++ '\n' :: (indentChars (2 * lvl) ++ [']']))
  | _, .obj [] => [lbrace, rbrace]
  | lvl, .obj (f :: fs) =>
      lbrace :: '\n' :: (printFields lvl (f :: fs) ++ '\n' :: (indentChars (2 * lvl) ++ [rbrace]))

/-- Array elements of json.dump with indent, without the brackets. -/
def printItems : Nat → List JVal → List Char
  | _, [] => []
  | lvl, [x] => indentChars (2 * (lvl + 1)) ++ printJ (lvl + 1) x
  | lvl, x :: y :: xs =>
      indentChars (2 * (lvl + 1)) ++ printJ (lvl + 1) x ++ ',' :: '\n' :: printItems lvl (y :: xs)

/-- Object members of json.dump with indent, without the braces. -/
def printFields : Nat → List (String × JVal) → List Char
  | _, [] => []
  | lvl, [(k, v)] =>
      indentChars (2 * (lvl + 1)) ++ '"' :: (escList k.data ++ '"' :: ':' :: ' ' :: printJ (lvl + 1) v)
  | lvl, (k, v) :: f :: fs =>
      indentChars (2 * (lvl + 1)) ++ '"' :: (escList k.data ++ '"' :: ':' :: ' ' :: printJ (lvl + 1) v) ++
        ',' :: '\n' :: printFields lvl (f :: fs)

end

/-- The text json.dump(v, f, indent=2) writes. -/
def dumps (v : JVal) : String := ⟨printJ 0 v⟩

mutual

/-- Node count of a value, a lower bound for the parser fuel. -/
def sizeJV : JVal → Nat
  | .null | .bool _ | .int _ | .str _ => 1
  | .arr xs => 1 + sizeItems xs
  | .obj fs => 1 + sizeFields fs

/-- Node count of array elements. -/
def sizeItems : List JVal → Nat
  | [] => 0
  | x :: xs => 1 + sizeJV x + sizeItems xs

/-- Node count of object members. -/
def sizeFields : List (String × JVal) → Nat
  | [] => 0
  | (_, v) :: fs => 1 + sizeJV v + sizeFields fs

end

/-- JSON whitespace accepted between tokens by json.load. -/
def isWs (c : Char) : Bool := c = ' ' || c = '\n' || c = '\t' || c = '\r'

/-- ASCII decimal digit test. -/
def isDigitC (c : Char) : Bool := 48 ≤ c.toNat && c.toNat ≤ 57

/-- Skip JSON whitespace. -/
def skipWs : List Char → List Char
  | [] => []
  | c :: cs => if isWs c then skipWs cs else c :: cs

/-- Value of one hexadecimal digit, either case. -/
def hexDigitVal (c : Char) : Option Nat :=
  if 48 ≤ c.toNat ∧ c.toNat ≤ 57 then some (c.toNat - 48)
  else if 97 ≤ c.toNat ∧ c.toNat ≤ 102 then some (c.toNat - 87)
  else if 65 ≤ c.toNat ∧ c.toNat ≤ 70 then some (c.toNat - 55)
  else none

/-- Decoding of the two-character escapes of JSON strings. -/
def escDecode (e : Char) : Option Char :=
  if e = '"' then some '"'
  else if e = '\\' then some '\\'
  else if e = '/' then some '/'
  else if e = 'b' then some (Char.ofNat 8)
  else if e = 'f' then some (Char.ofNat 12)
  else if e = 'n' then some '\n'
  else if e = 'r' then some '\r'
  else if e = 't' then some '\t'
  else none

/-- Parse a JSON string body after the opening quote, returning the decoded
    characters and the input after the closing quote (json.load semantics
    for the strings json.dump emits; a \u escape that does not denote a
    valid scalar value is rejected). -/
def parseStrBody : List Char → Option (List Char × List Char)
  | [] => none
  | c :: rest =>
    if c = '"' then some ([], rest)
    else if c = '\\' then
      match rest with
      | [] => none
      | e :: rest' =>
        if e = 'u' then
          match rest' with
          | h1 :: h2 :: h3 :: h4 :: rest'' =>
            match hexDigitVal h1, hexDigitVal h2, hexDigitVal h3, hexDigitVal h4 with
            | some a, some b, some c', some d =>
              let n := 4096 * a + 256 * b + 16 * c' + d
              if Nat.isValidChar n then
                (parseStrBody rest'').map (fun p => (Char.ofNat n :: p.1, p.2))
              else none
            | _, _, _, _ => none
          | _ => none
        else
          match escDecode e with
          | some d => (parseStrBody rest').map (fun p => (d :: p.1, p.2))
          | none => none
    else (parseStrBody rest).map (fun p => (c :: p.1, p.2))

/-- Accumulate a run of decimal digits. -/
def digitsRun (acc : Nat) : List Char → Nat × List Char
  | [] => (acc, [])
  | c :: cs => if isDigitC c then digitsRun (acc * 10 + (c.toNat - 48)) cs else (acc, c :: cs)

/-- Parse an integer literal (the only numbers json.dump emits here). -/
def parseNum : List Char → Option (JVal × List Char)
  | [] => none
  | c :: r =>
    if c = '-' then
      match r with
      | [] => none
      | d :: r' =>
        if isDigitC d then
          let p := digitsRun (d.toNat - 48) r'
          some (.int (-(p.1 : Int)), p.2)
        else none
    else if isDigitC c then
      let p := digitsRun (c.toNat - 48) r
      some (.int (p.1 : Int), p.2)
    else none

/-- Drop an expected literal tail such as the "ull" of null. -/
def stripPre : List Char → List Char → Option (List Char)
  | [], cs => some cs
  | _ :: _, [] => none
  | p :: ps, c :: cs => if c = p then stripPre ps cs else none

mutual

/-- Recursive-descent JSON value parser (json.load), fuel-based so that it
    evaluates by kernel reduction; fuel at least the node count suffices. -/
def parseVal : Nat → List Char → Option (JVal × List Char)
  | 0, _ => none
  | fuel + 1, cs =>
    match skipWs cs with
    | [] => none
    | c :: r =>
      if c = 'n' then (stripPre "ull".data r).map (fun r' => (.null, r'))
      else if c = 't' then (stripPre "rue".data r).map (fun r' => (.bool true, r'))
      else if c = 'f' then (stripPre "alse".data r).map (fun r' => (.bool false, r'))
      else if c = '"' then (parseStrBody r).map (fun p => (.str ⟨p.1⟩, p.2))
      else if c = '[' then
        let r1 := skipWs r
        if r1.head? = some ']' then some (.arr [], r1.tail)
        else (parseItems fuel r1).map (fun p => (.arr p.1, p.2))
      else if c = lbrace then
        let r1 := skipWs r
        if r1.head? = some rbrace then some (.obj [], r1.tail)
        else (parseFields fuel r1).map (fun p => (.obj p.1, p.2))
      else if c = '-' ∨ isDigitC c then parseNum (c :: r)
      else none

/-- Parse the elements of a nonempty array up to and past the closing
    bracket. -/
def parseItems : Nat → List Char → Option (List JVal × List Char)
  | 0, _ => none
  | fuel + 1, cs =>
    match parseVal fuel cs with
    | none => none
    | some (v, r) =>
      let r1 := skipWs r
      if r1.head? = some ',' then
        match parseItems fuel r1.tail with
        | some (vs, r'') => some (v :: vs, r'')
        | none => none
      else if r1.head? = some ']' then some ([v], r1.tail)
      else none

/-- Parse the members of a nonempty object up to and past the closing
    brace. -/
def parseFields : Nat → List Char → Option (List (String × JVal) × List Char)
  | 0, _ => none
  | fuel + 1, cs =>
    match skipWs cs with
    | [] => none
    | c :: r =>
      if c = '"' then
        match parseStrBody r with
        | none => none
        | some (kcs, r1) =>
          let r2 := skipWs r1
          if r2.head? = some ':' then
            match parseVal fuel r2.tail with
            | none => none
            | some (v, r3) =>
              let r4 := skipWs r3
              if r4.head? = some ',' then
                match parseFields fuel r4.tail with
                | some (fs, r5) => some ((⟨kcs⟩, v) :: fs, r5)
                | none => none
              else if r4.head? = some rbrace then some ([(⟨kcs⟩, v)], r4.tail)
              else none
          else none
      else none

end

/-- json.load of a whole document: one value, only whitespace after it. -/
def parseJson (s : String) : Option JVal :=
  match parseVal (s.data.length + 1) s.data with
  | some (v, rest) => if skipWs rest = [] then some v else none
  | none => none

/-- Basic-multilingual-plane character (code point below 0x10000; what the
    round-trip statement covers, astral characters need surrogate pairs). -/
def bmpChar (c : Char) : Bool := c.toNat < 65536

/-- All characters of a string in the basic multilingual plane. -/
def wfStr (s : String) : Bool := s.data.all bmpChar

/-- Pairwise distinct strings, as the keys of a Python dict are. -/
def allDistinct : List String → Bool
  | [] => true
  | k :: ks => !ks.contains k && allDistinct ks

mutual

/-- Well-formed embedded value: exactly the values a Python scan-results
    dict can denote, restricted to basic-multilingual-plane text: object
    keys are distinct (dict keys are unique) and strings hold BMP
    characters. -/
def wfJ : JVal → Bool
  | .null | .bool _ | .int _ => true
  | .str s => wfStr s
  | .arr xs => wfItems xs
  | .obj fs => allDistinct (fs.map Prod.fst) && wfFields fs

/-- Well-formedness of array elements. -/
def wfItems : List JVal → Bool
  | [] => true
  | x :: xs => wfJ x && wfItems xs

/-- Well-formedness of object members. -/
def wfFields : List (String × JVal) → Bool
  | [] => true
  | (k, v) :: fs => wfStr k && wfJ v && wfFields fs

end

/-! ### Python string helpers used by report_generator.py -/

/-- Python str.lower, on the ASCII range the severity names use. -/
def pyLower (s : String) : String := ⟨s.data.map Char.toLower⟩

/-- Python str.upper, used by the jinja upper filter. -/
def pyUpper (s : String) : String := ⟨s.data.map Char.toUpper⟩

/-- Python whitespace for str.strip. -/
def isPyWs (c : Char) : Bool :=
  c = ' ' || c = '\t' || c = '\n' || c = '\r' || c.toNat = 11 || c.toNat = 12

/-- Python str.strip: trim whitespace from both ends. -/
def pyStrip (s : String) : String :=
  ⟨((s.data.dropWhile isPyWs).reverse.dropWhile isPyWs).reverse⟩

/-- Does pat occur at the head of the list. -/
def matchPre : List Char → List Char → Bool
  | [], _ => true
  | _ :: _, [] => false
  | p :: ps, c :: cs => c = p && matchPre ps cs

/-- Replace every non-overlapping occurrence left to right (fuel-based;
    the fuel is the input length, enough since the pattern is nonempty). -/
def replaceAux (pat rep : List Char) : Nat → List Char → List Char
  | 0, cs => cs
  | _ + 1, [] => []
  | fuel + 1, c :: cs =>
    if matchPre pat (c :: cs) then rep ++ replaceAux pat rep fuel ((c :: cs).drop pat.length)
    else c :: replaceAux pat rep fuel cs

/-- Python str.replace(pat, rep): replace every non-overlapping occurrence
    left to right (the source only calls it with the nonempty pattern
    ".pdf"; an empty pattern is left as the identity here). -/
def pyReplace (s pat rep : String) : String :=
  if pat.data.isEmpty then s else ⟨replaceAux pat.data rep.data s.data.length s.data⟩

mutual

/-- Python str() of an embedded value as the f-string and jinja rendering
    use it. Containers are shown bracketed and comma-separated (Python
    would use element reprs; no claim inspects container renderings). -/
def pyStr : JVal → String
  | .null => "None"
  | .bool true => "True"
  | .bool false => "False"
  | .int (.ofNat m) => ⟨natChars m⟩
  | .int (.negSucc m) => ⟨'-' :: natChars (m + 1)⟩
  | .str s => s
  | .arr xs => "[" ++ pyStrList xs ++ "]"
  | .obj fs => ⟨[lbrace]⟩ ++ pyStrFields fs ++ ⟨[rbrace]⟩

/-- Comma-separated renderings of list elements. -/
def pyStrList : List JVal → String
  | [] => ""
  | [x] => pyStr x
  | x :: y :: xs => pyStr x ++ ", " ++ pyStrList (y :: xs)

/-- Comma-separated renderings of dict members. -/
def pyStrFields : List (String × JVal) → String
  | [] => ""
  | [(k, v)] => k ++ ": " ++ pyStr v
  | (k, v) :: f :: fs => k ++ ": " ++ pyStr v ++ ", " ++ pyStrFields (f :: fs)

end

/-! ### ReportGenerator (src/core/report_generator.py)

The generator is embedded as functions over an explicit filesystem state
FS together with an environment: which paths the operating system lets us
write (open(path, w) raises OSError otherwise), whether the external
weasyprint HTML-to-PDF conversion succeeds, and the datetime.now text.
A call returns the filesystem afterwards and the exception escaping the
call, if any. -/

/-- Filesystem state: content of each path, none when no file exists. -/
def FS : Type := String → Option String

/-- Write (create or overwrite) a file. -/
def setF (fs : FS) (p c : String) : FS := fun q => if q = p then some c else fs q

/-- Unlink a file. -/
def delF (fs : FS) (p : String) : FS := fun q => if q = p then none else fs q

/-- Environment of one generate call. -/
structure Env where
  /-- Paths that open(path, w) can write; others raise OSError. -/
  writable : String → Bool
  /-- Whether the weasyprint HTML-to-PDF conversion step succeeds. -/
  pdfConvertOk : Bool
  /-- The datetime.now().strftime text. -/
  now : String

/-- A Python exception escaping a generate call: the explicit ValueError of
    an unsupported format, an I/O failure of open/write, or a runtime error
    from malformed results (AttributeError/TypeError). -/
inductive PyErr where
  | valueError (msg : String)
  | osError
  | runtimeError

namespace ReportGenerator

/-- Python dict get: first binding of the key, none when absent. -/
def dictGet (fs : List (String × JVal)) (k : String) : Option JVal :=
  (fs.find? (fun p => p.1 == k)).map Prod.snd

/-- Association lookup in the severity_order dict of the source. -/
def alookup (l : List (String × Nat)) (k : String) : Option Nat :=
  (l.find? (fun p => p.1 == k)).map Prod.snd

/-- The severity_order dict of sort_vulnerabilities. -/
def severity_order : List (String × Nat) :=
  [("critical", 0), ("high", 1), ("medium", 2), ("low", 3), ("info", 4)]

/-- The lowercased severity of one record, exactly as the sort key reads
    it: x.get(severity, info).lower(). It is none when Python would raise
    (x not a dict, or a present severity that is not a string). -/
def vulnSeverity (v : JVal) : Option String :=
  match v with
  | .obj fs =>
    match (dictGet fs "severity").getD (.str "info") with
    | .str s => some (pyLower s)
    | _ => none
  | _ => none

/-- The sort key of one record: severity_order.get(lowered, 5). -/
def vulnKey (v : JVal) : Option Nat :=
  (vulnSeverity v).map (fun s => (alookup severity_order s).getD 5)

/-- Total version of the key used inside the sort (only ever applied when
    every key is defined). -/
def keyD (v : JVal) : Nat := (vulnKey v).getD 0

/-- ReportGenerator._sort_vulnerabilities: Python sorted with the severity
    key. Python sorted is a stable sort (Timsort); it is embedded as the
    stable List.mergeSort on the same key order. The result is none when
    computing some key would raise. -/
def sort_vulnerabilities (vs : List JVal) : Option (List JVal) :=
  if ∀ v ∈ vs, (vulnKey v).isSome then
    some (vs.mergeSort (fun a b => decide (keyD a ≤ keyD b)))
  else none

/-- Jinja rendering of an attribute access such as vuln.severity: the item
    of a dict, empty text when undefined. -/
def jAttrStr (v : JVal) (k : String) : String :=
  match v with
  | .obj fs => match dictGet fs k with
    | some jv => pyStr jv
    | none => ""
  | _ => ""

/-- Jinja truthiness of a value. -/
def jTruthy : JVal → Bool
  | .null => false
  | .bool b => b
  | .int n => decide (n ≠ 0)
  | .str s => !s.isEmpty
  | .arr xs => !xs.isEmpty
  | .obj fs => !fs.isEmpty

/-- Jinja truthiness of an attribute access (Undefined is falsy). -/
def jAttrTruthy (v : JVal) (k : String) : Bool :=
  match v with
  | .obj fs => match dictGet fs k with
    | some jv => jTruthy jv
    | none => false
  | _ => false

/-- ReportGenerator._generate_summary: the executive-summary f-string,
    stripped. None when Python would raise on malformed results
    (vulnerabilities not a list for len, severity_summary not a dict
    for .get). -/
def generate_summary (results : List (String × JVal)) : Option String :=
  match (dictGet results "vulnerabilities").getD (.arr []) with
  | .arr vs =>
    match (dictGet results "severity_summary").getD (.obj []) with
    | .obj counts =>
      let cnt : String → String := fun k => pyStr ((dictGet counts k).getD (.int 0))
      some (pyStrip (
        "\n        This security assessment identified " ++ (⟨natChars vs.length⟩ : String) ++
        " potential security issues on the target system.\n        \n" ++
        "        Critical vulnerabilities require immediate attention as they pose significant risk to the organization.\n" ++
        "        High and medium severity issues should be addressed in order of priority.\n        \n" ++
        "        Risk Distribution:\n" ++
        "        - Critical: " ++ cnt "critical" ++ " issues\n" ++
        "        - High: " ++ cnt "high" ++ " issues\n" ++
        "        - Medium: " ++ cnt "medium" ++ " issues\n" ++
        "        - Low: " ++ cnt "low" ++ " issues\n        "))
    | _ => none
  | _ => none

/-- The report_data mapping prepared by _generate_html. -/
structure ReportData where
  title : String
  generated_date : String
  target : JVal
  scan_duration : JVal
  summary : String
  vulnerabilities : List JVal
  severity_counts : JVal
  urls_scanned : JVal
  reconnaissance : JVal

/-- The report_data mapping of _generate_html, none when preparing it
    raises (malformed vulnerability records or severity summary). -/
def buildReportData (env : Env) (results : List (String × JVal)) : Option ReportData :=
  match (dictGet results "vulnerabilities").getD (.arr []) with
  | .arr vs =>
    match sort_vulnerabilities vs, generate_summary results with
    | some sorted, some summ =>
      some {
        title := "Deep Eye Security Assessment Report"
        generated_date := env.now
        target := (dictGet results "target").getD .null
        scan_duration := (dictGet results "duration").getD .null
        summary := summ
        vulnerabilities := sorted
        severity_counts := (dictGet results "severity_summary").getD (.obj [])
        urls_scanned := (dictGet results "urls_crawled").getD (.int 0)
        reconnaissance := (dictGet results "reconnaissance").getD (.obj []) }
    | _, _ => none
  | _ => none

/-- One vulnerability block of the HTML template, rendered in template
    order with jinja attribute semantics. -/
def renderVuln (v : JVal) : String :=
  "<div class=\"vulnerability " ++ jAttrStr v "severity" ++ "\"><h3>" ++ jAttrStr v "type" ++
  "</h3><div class=\"vulnerability-meta\"><span><strong>Severity:</strong> " ++
  pyUpper (jAttrStr v "severity") ++ "</span><span><strong>URL:</strong> " ++
  jAttrStr v "url" ++ "</span>" ++
  (if jAttrTruthy v "parameter" then
    "<span><strong>Parameter:</strong> " ++ jAttrStr v "parameter" ++ "</span>"
  else "") ++
  "</div><p><strong>Description:</strong> " ++ jAttrStr v "description" ++ "</p>" ++
  (if jAttrTruthy v "payload" then
    "<p><strong>Payload:</strong></p><div class=\"code\">" ++ jAttrStr v "payload" ++ "</div>"
  else "") ++
  "<p><strong>Evidence:</strong> " ++ jAttrStr v "evidence" ++
  "</p><p><strong>Remediation:</strong> " ++ jAttrStr v "remediation" ++ "</p></div>"

/-- Concatenated renderings, in list order, of the template for-loop. -/
def renderVulns : List JVal → String
  | [] => ""
  | v :: vs => renderVuln v ++ renderVulns vs

/-- The vulnerabilities section of the template: the for-loop over the
    sorted records, or the no-vulnerabilities paragraph. -/
def vulnSection (vs : List JVal) : String :=
  if vs.isEmpty then "<p>No vulnerabilities detected.</p>" else renderVulns vs

/-- The rendered HTML document of _get_html_template with the report data
    substituted. The static style chrome of the template is abbreviated to
    a fixed constant; every dynamic substitution appears, in template
    order. -/
def renderHtml (rd : ReportData) : String :=
  "<!DOCTYPE html><html lang=\"en\"><head><title>" ++ rd.title ++
  "</title><style>deep-eye-report-style</style></head><body><div class=\"container\">" ++
  "<div class=\"header\"><h1>" ++ rd.title ++ "</h1><p>Generated: " ++ rd.generated_date ++
  "</p></div><div class=\"metadata\"><div class=\"metadata-card\"><h3>Target</h3><p>" ++
  pyStr rd.target ++ "</p></div><div class=\"metadata-card\"><h3>Scan Duration</h3><p>" ++
  pyStr rd.scan_duration ++ "</p></div><div class=\"metadata-card\"><h3>URLs Scanned</h3><p>" ++
  pyStr rd.urls_scanned ++ "</p></div></div><div class=\"severity-grid\">" ++
  "<div class=\"severity-card severity-critical\"><h3>" ++ jAttrStr rd.severity_counts "critical" ++
  "</h3><p>Critical</p></div><div class=\"severity-card severity-high\"><h3>" ++
  jAttrStr rd.severity_counts "high" ++ "</h3><p>High</p></div>" ++
  "<div class=\"severity-card severity-medium\"><h3>" ++ jAttrStr rd.severity_counts "medium" ++
  "</h3><p>Medium</p></div><div class=\"severity-card severity-low\"><h3>" ++
  jAttrStr rd.severity_counts "low" ++ "</h3><p>Low</p></div></div>" ++
  "<div class=\"section\"><h2>Executive Summary</h2><p>" ++ rd.summary ++
  "</p></div><div class=\"section\"><h2>Vulnerabilities</h2>" ++
  vulnSection rd.vulnerabilities ++
  "</div><div class=\"footer\"><p>This report was generated by Deep Eye - Advanced AI-Driven Penetration Testing Tool</p></div></div></body></html>"

/-- ReportGenerator._generate_json: open(output_path, w) then
    json.dump(results, f, indent=2); an unwritable path raises OSError
    before anything is serialized. -/
def generate_json (env : Env) (results : List (String × JVal)) (path : String) (fs : FS) :
    FS × Option PyErr :=
  if env.writable path then (setF fs path (dumps (.obj results)), none) else (fs, some .osError)

/-- ReportGenerator._generate_html: prepare report_data (which may raise on
    malformed results), render the template, write the file. -/
def generate_html (env : Env) (results : List (String × JVal)) (path : String) (fs : FS) :
    FS × Option PyErr :=
  match buildReportData env results with
  | none => (fs, some .runtimeError)
  | some rd =>
    if env.writable path then (setF fs path (renderHtml rd), none) else (fs, some .osError)

/-- The PDF bytes weasyprint renders from an HTML document (kept abstract
    as an injective tagging of the HTML text). -/
def pdfConvert (html : String) : String := "%PDF " ++ html

/-- ReportGenerator._generate_pdf: html_path is output_path.replace(.pdf,
    .html); generate the HTML there (raising as _generate_html does, this
    step is outside the try); then, inside try/except: weasyprint reads
    html_path, writes the PDF to output_path, and unlinks html_path; any
    failure in the try block (conversion failure, unwritable output, or a
    missing html file) is caught and only logged. -/
def generate_pdf (env : Env) (results : List (String × JVal)) (path : String) (fs : FS) :
    FS × Option PyErr :=
  let html_path := pyReplace path ".pdf" ".html"
  let r := generate_html env results html_path fs
  match r.2 with
  | some e => (r.1, some e)
  | none =>
    if env.pdfConvertOk then
      match r.1 html_path with
      | some htmlContent =>
        if env.writable path then (delF (setF r.1 path (pdfConvert htmlContent)) html_path, none)
        else (r.1, none)
      | none => (r.1, none)
    else (r.1, none)

/-- ReportGenerator.generate: dispatch on the format string; any other
    format raises ValueError before any file is touched. -/
def generate (env : Env) (results : List (String × JVal)) (output_path : String)
    (format : String) (fs : FS) : FS × Option PyErr :=
  if format = "json" then generate_json env results output_path fs
  else if format = "html" then generate_html env results output_path fs
  else if format = "pdf" then generate_pdf env results output_path fs
  else (fs, some (.valueError ("Unsupported format: " ++ format)))

end ReportGenerator

/-! ### HTTPClient (src/utils/http_client.py)

The client builds one requests.Session with a mounted
urllib3.util.retry.Retry(total=max_retries, backoff_factor=1,
status_forcelist=[429, 500, 502, 503, 504],
allowed_methods=[HEAD, GET, OPTIONS, POST]) adapter. The transport below
is the behaviour of the network on each successive attempt of one logical
call; the retry loop embeds the urllib3 semantics for this configuration:
  - an attempt raising a transport error consumes one unit of the total
    budget; an exhausted budget raises MaxRetryError, which requests
    surfaces as a ConnectionError/ConnectTimeout/SSLError;
  - a response whose status is in the forcelist for an allowed method
    likewise consumes budget; on exhaustion, Retry.raise_on_status (true
    by default, the source does not change it) turns the last retryable
    response into a raised MaxRetryError(ResponseError), which requests
    surfaces as RetryError;
  - any other response is returned as-is.
Every one of these raised classes is a requests.exceptions.
RequestException, which the verb methods catch, returning None. -/

/-- A populated HTTP response. -/
structure Response where
  status : Nat
  respHeaders : List (String × String)
  body : String
  finalUrl : String

/-- Transport-level exception classes of one attempt. -/
inductive NetErr where
  | connectionError
  | dnsFailure
  | timeoutError
  | tlsFailure

/-- Outcome of one attempt on the wire. -/
inductive AttemptResult where
  | resp (r : Response)
  | err (e : NetErr)

/-- What session.request raises after the retry loop; each constructor is
    a requests.exceptions.RequestException subclass. -/
inductive SessionErr where
  /-- MaxRetryError from exhausted transport errors, surfaced as
      ConnectionError / ConnectTimeout / SSLError. -/
  | maxRetry (e : NetErr)
  /-- RetryError from exhausted status-forcelist retries
      (Retry.raise_on_status default). -/
  | retryExhausted (lastStatus : Nat)

/-- Header mappings, ordered as requests CaseInsensitiveDict iterates. -/
abbrev Headers : Type := List (String × String)

/-- Case-insensitive key equality of CaseInsensitiveDict. -/
def lowEq (a b : String) : Bool := pyLower a == pyLower b

/-- Setting one key of a CaseInsensitiveDict: replace the binding whose
    lowered key matches (keeping its position, the new key spelling wins),
    else append. -/
def ciSet : Headers → String → String → Headers
  | [], k, v => [(k, v)]
  | p :: h, k, v => if lowEq p.1 k then (k, v) :: h else p :: ciSet h k v

/-- CaseInsensitiveDict.update with a mapping, later bindings winning. -/
def ciUpdate (h upd : Headers) : Headers :=
  upd.foldl (fun acc p => ciSet acc p.1 p.2) h

/-- Case-insensitive header lookup. -/
def ciGet (h : Headers) (k : String) : Option String :=
  (h.find? (fun p => lowEq p.1 k)).map Prod.snd

/-- The scanner section of the configuration dict. -/
structure ScannerConfig where
  timeout : Option Nat := none
  verify_ssl : Option Bool := none
  max_retries : Option Nat := none
  user_agent : Option String := none

/-- The configuration dict handed to HTTPClient. -/
structure Config where
  scanner : Option ScannerConfig := none

/-- The HTTP verbs the client exposes. -/
inductive Method where
  | GET
  | POST
  | HEAD
  | OPTIONS

/-- Membership of the verb in the Retry allowed_methods list
    [HEAD, GET, OPTIONS, POST]: every exposed verb is retryable. -/
def allowed_methods : Method → Bool
  | .GET | .POST | .HEAD | .OPTIONS => true

/-- The Retry status_forcelist of the source. -/
def status_forcelist : List Nat := [429, 500, 502, 503, 504]

/-- Is this status in the forcelist. -/
def retryableStatus (s : Nat) : Bool := status_forcelist.contains s

/-- The session state HTTPClient.__init__ builds; nothing later mutates
    it. -/
structure HTTPClient where
  timeout : Nat
  verify_ssl : Bool
  max_retries : Nat
  user_agent : String
  sessionHeaders : Headers
  sessionCookies : List (String × String)
  proxies : List (String × String)

namespace HTTPClient

/-- The default session headers set in __init__. -/
def defaultHeaders (ua : String) : Headers :=
  [("User-Agent", ua), ("Accept", "*/*"), ("Accept-Language", "en-US,en;q=0.9"),
   ("Accept-Encoding", "gzip, deflate"), ("Connection", "keep-alive")]

/-- HTTPClient.__init__(proxy, custom_headers, cookies, config): read the
    scanner config with its defaults, set the default headers, update them
    with the custom headers, set cookies and proxy on the session once. -/
def init (proxy : Option String) (custom_headers : Option Headers)
    (cookies : Option (List (String × String))) (config : Option Config) : HTTPClient :=
  let scanner := ((config.getD {}).scanner).getD {}
  let ua := scanner.user_agent.getD "Deep-Eye/1.0"
  { timeout := scanner.timeout.getD 10
    verify_ssl := scanner.verify_ssl.getD true
    max_retries := scanner.max_retries.getD 3
    user_agent := ua
    sessionHeaders := ciUpdate (defaultHeaders ua) (custom_headers.getD [])
    sessionCookies := cookies.getD []
    proxies := match proxy with
      | some p => [("http", p), ("https", p)]
      | none => [] }

/-- The request one verb call hands to the session, after requests merges
    the session settings into it: session headers updated by the per-call
    headers (per-call winning), session cookies and proxies attached, and
    the timeout and verify flags the verb method passes explicitly. -/
structure IssuedRequest where
  method : Method
  url : String
  params : Option (List (String × String))
  postData : Option (List (String × String))
  postJson : Option JVal
  reqHeaders : Headers
  cookies : List (String × String)
  proxies : List (String × String)
  timeout : Nat
  verify : Bool
  allow_redirects : Bool

/-- Network behaviour: the outcome of each successive attempt (0-based)
    for a given issued request. -/
def Transport : Type := IssuedRequest → Nat → AttemptResult

/-- The urllib3 retry loop for the mounted Retry object, with the
    remaining total budget and the index of the next attempt; returns what
    the session call produces together with the number of attempts made.
    Retry.increment raises MaxRetryError once the budget would go
    negative; with raise_on_status (the default), exhaustion on a
    forcelist status also raises. -/
def urlopenRetry (t : Nat → AttemptResult) (methodRetryable : Bool) :
    Nat → Nat → Except SessionErr Response × Nat
  | 0, k =>
    match t k with
    | .err e => (.error (.maxRetry e), k + 1)
    | .resp r =>
      if methodRetryable && retryableStatus r.status then (.error (.retryExhausted r.status), k + 1)
      else (.ok r, k + 1)
  | budget + 1, k =>
    match t k with
    | .err _ => urlopenRetry t methodRetryable budget (k + 1)
    | .resp r =>
      if methodRetryable && retryableStatus r.status then urlopenRetry t methodRetryable budget (k + 1)
      else (.ok r, k + 1)

/-- One session.request through the mounted adapter: run the retry loop
    with total = max_retries. -/
def sessionSend (c : HTTPClient) (req : IssuedRequest) (t : Transport) :
    Except SessionErr Response × Nat :=
  urlopenRetry (t req) (allowed_methods req.method) c.max_retries 0

/-- The request HTTPClient.get issues: session.get(url, params=params,
    headers=headers, timeout=self.timeout, verify=self.verify_ssl,
    allow_redirects=allow_redirects). -/
def mkGetRequest (c : HTTPClient) (url : String) (params : Option (List (String × String)))
    (headers : Option Headers) (allow_redirects : Bool) : IssuedRequest :=
  { method := .GET, url := url, params := params, postData := none, postJson := none
    reqHeaders := ciUpdate c.sessionHeaders (headers.getD [])
    cookies := c.sessionCookies, proxies := c.proxies
    timeout := c.timeout, verify := c.verify_ssl, allow_redirects := allow_redirects }

/-- The request HTTPClient.post issues. -/
def mkPostRequest (c : HTTPClient) (url : String) (data : Option (List (String × String)))
    (json : Option JVal) (headers : Option Headers) : IssuedRequest :=
  { method := .POST, url := url, params := none, postData := data, postJson := json
    reqHeaders := ciUpdate c.sessionHeaders (headers.getD [])
    cookies := c.sessionCookies, proxies := c.proxies
    timeout := c.timeout, verify := c.verify_ssl, allow_redirects := true }

/-- The request HTTPClient.head issues. -/
def mkHeadRequest (c : HTTPClient) (url : String) : IssuedRequest :=
  { method := .HEAD, url := url, params := none, postData := none, postJson := none
    reqHeaders := c.sessionHeaders
    cookies := c.sessionCookies, proxies := c.proxies
    timeout := c.timeout, verify := c.verify_ssl, allow_redirects := false }

/-- The request HTTPClient.options issues. -/
def mkOptionsRequest (c : HTTPClient) (url : String) : IssuedRequest :=
  { method := .OPTIONS, url := url, params := none, postData := none, postJson := none
    reqHeaders := c.sessionHeaders
    cookies := c.sessionCookies, proxies := c.proxies
    timeout := c.timeout, verify := c.verify_ssl, allow_redirects := true }

/-- HTTPClient.get: try the session call, catch RequestException and
    return None; the client object itself is returned unchanged (no verb
    method assigns to self). -/
def get (c : HTTPClient) (t : Transport) (url : String)
    (params : Option (List (String × String))) (headers : Option Headers)
    (allow_redirects : Bool) : Option Response × HTTPClient :=
  ((sessionSend c (mkGetRequest c url params headers allow_redirects) t).1.toOption, c)

/-- HTTPClient.post, same contract as get. -/
def post (c : HTTPClient) (t : Transport) (url : String)
    (data : Option (List (String × String))) (json : Option JVal)
    (headers : Option Headers) : Option Response × HTTPClient :=
  ((sessionSend c (mkPostRequest c url data json headers) t).1.toOption, c)

/-- HTTPClient.head, same contract as get. -/
def head (c : HTTPClient) (t : Transport) (url : String) : Option Response × HTTPClient :=
  ((sessionSend c (mkHeadRequest c url) t).1.toOption, c)

/-- HTTPClient.options, same contract as get. -/
def options (c : HTTPClient) (t : Transport) (url : String) : Option Response × HTTPClient :=
  ((sessionSend c (mkOptionsRequest c url) t).1.toOption, c)

end HTTPClient

/-! ### Auxiliary definitions used by the claim statements -/

/-- The input does not continue with a decimal digit (the delimiting
    condition after a printed integer). -/
def noDigitHead : List Char → Prop
  | [] => True
  | c :: _ => isDigitC c = false

/-- Ten to the number of decimal digits of n (fuel-based companion of
    natCharsAux). -/
def tenPowLen : Nat → Nat → Nat
  | 0, _ => 1
  | fuel + 1, n => if n = 0 then 1 else 10 * tenPowLen fuel (n / 10)

/-- An attempt outcome that is not a usable response: a transport error,
    or a response whose status is retryable (the loop will not return
    it). -/
def unusableB : AttemptResult → Bool
  | .err _ => true
  | .resp r => retryableStatus r.status

/-- Pairwise distinct lowercased header keys (a header dict has one
    binding per case-insensitive key). -/
def distinctLowerKeysB (h : Headers) : Bool :=
  allDistinct (h.map (fun p => pyLower p.1))

/-- Severity rank exactly as the specification words it: critical 0,
    high 1, medium 2, low 3, info 4, any other severity 5. -/
def specRankOfName (sev : String) : Nat :=
  if sev = "critical" then 0
  else if sev = "high" then 1
  else if sev = "medium" then 2
  else if sev = "low" then 3
  else if sev = "info" then 4
  else 5

/-- Severity rank of one vulnerability record per the specification: the
    rank of its case-folded severity name, a record without a severity
    ranking as info (claims C6 and C10); records outside the documented
    shape (not a mapping, or a non-string severity) fall to the last
    rank. -/
def specSeverityRank (v : JVal) : Nat :=
  match v with
  | .obj fs =>
    match ReportGenerator.dictGet fs "severity" with
    | none => specRankOfName "info"
    | some (.str s) => specRankOfName (pyLower s)
    | some _ => 5
  | _ => 5

/-- The specification ordering of the HTML report: the input list stably
    sorted by severity rank (insertion sort keeps ties in input order). -/
def specStableSortBySeverity (vs : List JVal) : List JVal :=
  List.insertionSort (fun a b => specSeverityRank a ≤ specSeverityRank b) vs

/-! ## Lemmas about the retry loop -/

theorem option_none_or_some {α : Type} (o : Option α) : o = none ∨ ∃ a, o = some a := by
  cases o with
  | none => exact Or.inl rfl
  | some a => exact Or.inr ⟨a, rfl⟩

/-- A transport that never yields a usable response (only errors and
    retryable statuses) drives the loop to a raised error. -/
theorem urlopenRetry_unusable (t : Nat → AttemptResult) (h : ∀ k, unusableB (t k) = true) :
    ∀ budget k, ∃ e, (HTTPClient.urlopenRetry t true budget k).1 = .error e
  | 0, k => by
    cases ht : t k with
    | err e => exact ⟨.maxRetry e, by simp [HTTPClient.urlopenRetry, ht]⟩
    | resp r =>
      have hr : retryableStatus r.status = true := by
        have hk := h k
        rw [ht] at hk
        simpa [unusableB] using hk
      exact ⟨.retryExhausted r.status, by simp [HTTPClient.urlopenRetry, ht, hr]⟩
  | budget + 1, k => by
    cases ht : t k with
    | err e =>
      obtain ⟨e', he'⟩ := urlopenRetry_unusable t h budget (k + 1)
      exact ⟨e', by simpa [HTTPClient.urlopenRetry, ht] using he'⟩
    | resp r =>
      have hr : retryableStatus r.status = true := by
        have hk := h k
        rw [ht] at hk
        simpa [unusableB] using hk
      obtain ⟨e', he'⟩ := urlopenRetry_unusable t h budget (k + 1)
      exact ⟨e', by simpa [HTTPClient.urlopenRetry, ht, hr] using he'⟩

/-- A transport that always answers with a retryable status drives the
    loop through the whole budget and raises, having made
    budget + 1 attempts. -/
theorem urlopenRetry_all_retryable (t : Nat → AttemptResult)
    (h : ∀ k, ∃ r, t k = .resp r ∧ retryableStatus r.status = true) :
    ∀ budget k, (∃ s, (HTTPClient.urlopenRetry t true budget k).1 = .error (.retryExhausted s)) ∧
      (HTTPClient.urlopenRetry t true budget k).2 = k + budget + 1
  | 0, k => by
    obtain ⟨r, ht, hr⟩ := h k
    refine ⟨⟨r.status, ?_⟩, ?_⟩ <;> simp [HTTPClient.urlopenRetry, ht, hr]
  | budget + 1, k => by
    obtain ⟨r, ht, hr⟩ := h k
    obtain ⟨⟨s, hs⟩, hcount⟩ := urlopenRetry_all_retryable t h budget (k + 1)
    refine ⟨⟨s, ?_⟩, ?_⟩
    · simpa [HTTPClient.urlopenRetry, ht, hr] using hs
    · rw [show (HTTPClient.urlopenRetry t true (budget + 1) k).2 =
          (HTTPClient.urlopenRetry t true budget (k + 1)).2 by
            simp [HTTPClient.urlopenRetry, ht, hr], hcount]
      omega

/-- The session call on an all-unusable transport raises, so the caught
    result is the sentinel. -/
theorem sessionSend_unusable_toOption (c : HTTPClient) (req : HTTPClient.IssuedRequest)
    (t : HTTPClient.Transport) (h : ∀ k, unusableB (t req k) = true)
    (hm : allowed_methods req.method = true) :
    (HTTPClient.sessionSend c req t).1.toOption = none := by
  obtain ⟨e, he⟩ := urlopenRetry_unusable (t req) h c.max_retries 0
  unfold HTTPClient.sessionSend
  rw [hm, he]
  rfl

/-- The session call on an always-retryable-status transport makes exactly
    max_retries + 1 attempts and raises RetryError. -/
theorem sessionSend_all_retryable (c : HTTPClient) (req : HTTPClient.IssuedRequest)
    (t : HTTPClient.Transport)
    (h : ∀ k, ∃ r, t req k = .resp r ∧ retryableStatus r.status = true)
    (hm : allowed_methods req.method = true) :
    (HTTPClient.sessionSend c req t).2 = c.max_retries + 1 ∧
      (HTTPClient.sessionSend c req t).1.toOption = none := by
  obtain ⟨⟨s, hs⟩, hcount⟩ := urlopenRetry_all_retryable (t req) h c.max_retries 0
  constructor
  · unfold HTTPClient.sessionSend
    rw [hm, hcount]
    omega
  · unfold HTTPClient.sessionSend
    rw [hm, hs]
    rfl

/-! ## Claim C1 -/

/-- Claim C1: for every call operation (get, post, head, options) and
    every URL, a transport that produces only failures or retryable
    statuses (so that retries are exhausted without a usable response)
    makes the operation return the sentinel None rather than propagating
    an exception; and the result of every call is either a populated
    response or the sentinel. -/
theorem c1_transport_failure_returns_sentinel (c : HTTPClient) (t : HTTPClient.Transport)
    (url : String) (params : Option (List (String × String))) (headers : Option Headers)
    (allow_redirects : Bool) (data : Option (List (String × String))) (json : Option JVal) :
    ((∀ req k, unusableB (t req k) = true) →
      (HTTPClient.get c t url params headers allow_redirects).1 = none ∧
      (HTTPClient.post c t url data json headers).1 = none ∧
      (HTTPClient.head c t url).1 = none ∧
      (HTTPClient.options c t url).1 = none) ∧
    ((HTTPClient.get c t url params headers allow_redirects).1 = none ∨
      ∃ r, (HTTPClient.get c t url params headers allow_redirects).1 = some r) ∧
    ((HTTPClient.post c t url data json headers).1 = none ∨
      ∃ r, (HTTPClient.post c t url data json headers).1 = some r) ∧
    ((HTTPClient.head c t url).1 = none ∨ ∃ r, (HTTPClient.head c t url).1 = some r) ∧
    ((HTTPClient.options c t url).1 = none ∨ ∃ r, (HTTPClient.options c t url).1 = some r) := by
  refine ⟨fun h => ⟨?_, ?_, ?_, ?_⟩, ?_, ?_, ?_, ?_⟩
  · exact sessionSend_unusable_toOption c _ t (fun k => h _ k) rfl
  · exact sessionSend_unusable_toOption c _ t (fun k => h _ k) rfl
  · exact sessionSend_unusable_toOption c _ t (fun k => h _ k) rfl
  · exact sessionSend_unusable_toOption c _ t (fun k => h _ k) rfl
  · exact option_none_or_some _
  · exact option_none_or_some _
  · exact option_none_or_some _
  · exact option_none_or_some _

/-- Witness for C1 at a concrete client and an always-timing-out
    transport. -/
theorem c1_witness :
    (HTTPClient.get (HTTPClient.init none none none none) (fun _ _ => .err .timeoutError)
      "http://target" none none true).1 = none ∧
    (HTTPClient.post (HTTPClient.init none none none none) (fun _ _ => .err .timeoutError)
      "http://target" none none none).1 = none ∧
    (HTTPClient.head (HTTPClient.init none none none none) (fun _ _ => .err .timeoutError)
      "http://target").1 = none ∧
    (HTTPClient.options (HTTPClient.init none none none none) (fun _ _ => .err .timeoutError)
      "http://target").1 = none :=
  (c1_transport_failure_returns_sentinel (HTTPClient.init none none none none)
    (fun _ _ => .err .timeoutError) "http://target" none none true none none).1
    (fun _ _ => rfl)

/-! ## Claim C2 -/

/-- Claim C2 as stated is false on the code: with the default
    configuration (max_retries = 3) and a transport that always returns
    503, the client makes 4 attempts but the mounted Retry object, whose
    raise_on_status default is true, raises RetryError on exhaustion, so
    get returns the sentinel None rather than the last 503 response. -/
theorem c2_counterexample :
    (HTTPClient.get (HTTPClient.init none none none none)
        (fun _ _ => .resp ⟨503, [], "", "http://t"⟩) "http://t" none none true).1 = none ∧
    (HTTPClient.sessionSend (HTTPClient.init none none none none)
        (HTTPClient.mkGetRequest (HTTPClient.init none none none none) "http://t" none none true)
        (fun _ _ => .resp ⟨503, [], "", "http://t"⟩)).2 = 4 := by
  exact ⟨rfl, rfl⟩

/-- Claim C2 amended: for every configured maxRetries = n, a transport
    that always returns a retryable status makes every retryable call
    perform exactly n + 1 attempts; the exhausted status retries then
    raise (Retry.raise_on_status is left at its default), the client
    catches the RetryError, and the call returns the sentinel None, not
    the last retryable-status response. -/
theorem c2_amended_retry_exhaustion_sentinel (c : HTTPClient) (t : HTTPClient.Transport)
    (url : String) (params : Option (List (String × String))) (headers : Option Headers)
    (allow_redirects : Bool) (data : Option (List (String × String))) (json : Option JVal)
    (h : ∀ req k, ∃ r, t req k = .resp r ∧ retryableStatus r.status = true) :
    (HTTPClient.sessionSend c (HTTPClient.mkGetRequest c url params headers allow_redirects) t).2 =
        c.max_retries + 1 ∧
    (HTTPClient.get c t url params headers allow_redirects).1 = none ∧
    (HTTPClient.sessionSend c (HTTPClient.mkPostRequest c url data json headers) t).2 =
        c.max_retries + 1 ∧
    (HTTPClient.post c t url data json headers).1 = none ∧
    (HTTPClient.sessionSend c (HTTPClient.mkHeadRequest c url) t).2 = c.max_retries + 1 ∧
    (HTTPClient.head c t url).1 = none ∧
    (HTTPClient.sessionSend c (HTTPClient.mkOptionsRequest c url) t).2 = c.max_retries + 1 ∧
    (HTTPClient.options c t url).1 = none := by
  obtain ⟨hg1, hg2⟩ := sessionSend_all_retryable c
    (HTTPClient.mkGetRequest c url params headers allow_redirects) t (fun k => h _ k) rfl
  obtain ⟨hp1, hp2⟩ := sessionSend_all_retryable c
    (HTTPClient.mkPostRequest c url data json headers) t (fun k => h _ k) rfl
  obtain ⟨hh1, hh2⟩ := sessionSend_all_retryable c
    (HTTPClient.mkHeadRequest c url) t (fun k => h _ k) rfl
  obtain ⟨ho1, ho2⟩ := sessionSend_all_retryable c
    (HTTPClient.mkOptionsRequest c url) t (fun k => h _ k) rfl
  exact ⟨hg1, hg2, hp1, hp2, hh1, hh2, ho1, ho2⟩

/-- Witness for the amended C2 at max_retries = 2 and an always-503
    transport. -/
theorem c2_witness :
    (HTTPClient.sessionSend
        (HTTPClient.init none none none
          (some { scanner := some { max_retries := some 2 } }))
        (HTTPClient.mkGetRequest
          (HTTPClient.init none none none
            (some { scanner := some { max_retries := some 2 } })) "http://t" none none true)
        (fun _ _ => .resp ⟨503, [], "", "http://t"⟩)).2 =
      (HTTPClient.init none none none
        (some { scanner := some { max_retries := some 2 } })).max_retries + 1 ∧
    (HTTPClient.get
        (HTTPClient.init none none none
          (some { scanner := some { max_retries := some 2 } }))
        (fun _ _ => .resp ⟨503, [], "", "http://t"⟩) "http://t" none none true).1 = none ∧
    (HTTPClient.sessionSend
        (HTTPClient.init none none none
          (some { scanner := some { max_retries := some 2 } }))
        (HTTPClient.mkPostRequest
          (HTTPClient.init none none none
            (some { scanner := some { max_retries := some 2 } })) "http://t" none none none)
        (fun _ _ => .resp ⟨503, [], "", "http://t"⟩)).2 =
      (HTTPClient.init none none none
        (some { scanner := some { max_retries := some 2 } })).max_retries + 1 ∧
    (HTTPClient.post
        (HTTPClient.init none none none
          (some { scanner := some { max_retries := some 2 } }))
        (fun _ _ => .resp ⟨503, [], "", "http://t"⟩) "http://t" none none none).1 = none ∧
    (HTTPClient.sessionSend
        (HTTPClient.init none none none
          (some { scanner := some { max_retries := some 2 } }))
        (HTTPClient.mkHeadRequest
          (HTTPClient.init none none none
            (some { scanner := some { max_retries := some 2 } })) "http://t")
        (fun _ _ => .resp ⟨503, [], "", "http://t"⟩)).2 =
      (HTTPClient.init none none none
        (some { scanner := some { max_retries := some 2 } })).max_retries + 1 ∧
    (HTTPClient.head
        (HTTPClient.init none none none
          (some { scanner := some { max_retries := some 2 } }))
        (fun _ _ => .resp ⟨503, [], "", "http://t"⟩) "http://t").1 = none ∧
    (HTTPClient.sessionSend
        (HTTPClient.init none none none
          (some { scanner := some { max_retries := some 2 } }))
        (HTTPClient.mkOptionsRequest
          (HTTPClient.init none none none
            (some { scanner := some { max_retries := some 2 } })) "http://t")
        (fun _ _ => .resp ⟨503, [], "", "http://t"⟩)).2 =
      (HTTPClient.init none none none
        (some { scanner := some { max_retries := some 2 } })).max_retries + 1 ∧
    (HTTPClient.options
        (HTTPClient.init none none none
          (some { scanner := some { max_retries := some 2 } }))
        (fun _ _ => .resp ⟨503, [], "", "http://t"⟩) "http://t").1 = none :=
  c2_amended_retry_exhaustion_sentinel
    (HTTPClient.init none none none (some { scanner := some { max_retries := some 2 } }))
    (fun _ _ => .resp ⟨503, [], "", "http://t"⟩) "http://t" none none true none none
    (fun _ _ => ⟨⟨503, [], "", "http://t"⟩, rfl, rfl⟩)

/-! ## Claim C9 -/

/-- Claim C9: the configuration fixed at construction is unchanged by
    every call operation (each verb returns the client value as it was),
    and every issued request carries exactly the configured timeout and
    TLS-verification flag; the verb signatures expose no per-call override
    of either. -/
theorem c9_config_immutable_and_applied (c : HTTPClient) (t : HTTPClient.Transport)
    (url : String) (params : Option (List (String × String))) (headers : Option Headers)
    (allow_redirects : Bool) (data : Option (List (String × String))) (json : Option JVal) :
    (HTTPClient.mkGetRequest c url params headers allow_redirects).timeout = c.timeout ∧
    (HTTPClient.mkGetRequest c url params headers allow_redirects).verify = c.verify_ssl ∧
    (HTTPClient.mkPostRequest c url data json headers).timeout = c.timeout ∧
    (HTTPClient.mkPostRequest c url data json headers).verify = c.verify_ssl ∧
    (HTTPClient.mkHeadRequest c url).timeout = c.timeout ∧
    (HTTPClient.mkHeadRequest c url).verify = c.verify_ssl ∧
    (HTTPClient.mkOptionsRequest c url).timeout = c.timeout ∧
    (HTTPClient.mkOptionsRequest c url).verify = c.verify_ssl ∧
    (HTTPClient.get c t url params headers allow_redirects).2 = c ∧
    (HTTPClient.post c t url data json headers).2 = c ∧
    (HTTPClient.head c t url).2 = c ∧
    (HTTPClient.options c t url).2 = c :=
  ⟨rfl, rfl, rfl, rfl, rfl, rfl, rfl, rfl, rfl, rfl, rfl, rfl⟩

/-! ## Lemmas about case-insensitive headers -/

theorem lowEq_symm (a b : String) : lowEq a b = lowEq b a := by
  simp only [lowEq]
  by_cases h : pyLower a = pyLower b
  · simp [h]
  · simp [h, Ne.symm h]

theorem lowEq_true_iff (a b : String) : lowEq a b = true ↔ pyLower a = pyLower b := by
  simp [lowEq]

theorem lowEq_trans {a b c : String} (h1 : lowEq a b = true) (h2 : lowEq b c = true) :
    lowEq a c = true := by
  rw [lowEq_true_iff] at h1 h2 ⊢
  exact h1.trans h2

theorem ciGet_cons (p : String × String) (h : Headers) (k : String) :
    ciGet (p :: h) k = if lowEq p.1 k then some p.2 else ciGet h k := by
  simp only [ciGet, List.find?]
  cases hc : lowEq p.1 k <;> simp [hc]

theorem ciGet_ciSet (h : Headers) (k v k' : String) :
    ciGet (ciSet h k v) k' = if lowEq k' k then some v else ciGet h k' := by
  induction h with
  | nil =>
    rw [show ciSet [] k v = [(k, v)] from rfl, ciGet_cons]
    rw [lowEq_symm k k']
  | cons p h ih =>
    by_cases hpk : lowEq p.1 k = true
    · rw [show ciSet (p :: h) k v = (k, v) :: h by simp [ciSet, hpk], ciGet_cons]
      by_cases hk'k : lowEq k' k = true
      · rw [lowEq_symm k k', hk'k]
        simp [hk'k]
      · have h1 : lowEq k k' = false := by
          rw [lowEq_symm]
          simpa using hk'k
        have h2 : lowEq p.1 k' = false := by
          by_contra hc
          simp only [Bool.not_eq_false] at hc
          have : lowEq k k' = true := lowEq_trans ((lowEq_symm p.1 k) ▸ hpk) hc
          rw [this] at h1
          exact Bool.true_eq_false.mp h1
        rw [h1, ciGet_cons, h2]
        simp [hk'k]
    · have hpk' : lowEq p.1 k = false := by simpa using hpk
      rw [show ciSet (p :: h) k v = p :: ciSet h k v by simp [ciSet, hpk'], ciGet_cons]
      by_cases hpk'' : lowEq p.1 k' = true
      · have hne : lowEq k' k = false := by
          by_contra hc
          simp only [Bool.not_eq_false] at hc
          have : lowEq p.1 k = true := lowEq_trans hpk'' hc
          rw [this] at hpk'
          exact Bool.true_eq_false.mp hpk'
        rw [hpk'', hne, ciGet_cons, hpk'']
        simp
      · have hpkf : lowEq p.1 k' = false := by simpa using hpk''
        rw [hpkf, ih, ciGet_cons, hpkf]
        simp

theorem distinctLowerKeysB_tail {p : String × String} {rest : Headers}
    (h : distinctLowerKeysB (p :: rest) = true) :
    distinctLowerKeysB rest = true ∧ ∀ q ∈ rest, pyLower q.1 ≠ pyLower p.1 := by
  simp only [distinctLowerKeysB, List.map, allDistinct, Bool.and_eq_true,
    Bool.not_eq_eq_eq_not, Bool.not_true, List.contains, List.elem_eq_mem,
    decide_eq_false_iff_not] at h
  obtain ⟨h1, h2⟩ := h
  refine ⟨h2, fun q hq he => ?_⟩
  exact h1 (he ▸ List.mem_map_of_mem (fun p => pyLower p.1) hq)

theorem ciGet_ciUpdate_of_none : ∀ (upd h : Headers) (k : String),
    ciGet upd k = none → ciGet (ciUpdate h upd) k = ciGet h k
  | [], h, k, _ => rfl
  | p :: rest, h, k, hnone => by
    rw [ciGet_cons] at hnone
    by_cases hpk : lowEq p.1 k = true
    · rw [hpk] at hnone
      simp at hnone
    · have hpkf : lowEq p.1 k = false := by simpa using hpk
      simp only [hpkf, Bool.false_eq_true, if_false] at hnone
      have : ciUpdate h (p :: rest) = ciUpdate (ciSet h p.1 p.2) rest := rfl
      rw [this, ciGet_ciUpdate_of_none rest _ k hnone, ciGet_ciSet]
      have : lowEq k p.1 = false := by
        rw [lowEq_symm]
        exact hpkf
      simp [this]

theorem ciGet_ciUpdate_of_some : ∀ (upd h : Headers) (k v : String),
    distinctLowerKeysB upd = true → ciGet upd k = some v →
    ciGet (ciUpdate h upd) k = some v
  | [], _, _, _, _, hsome => by simp [ciGet, List.find?] at hsome
  | p :: rest, h, k, v, hnd, hsome => by
    obtain ⟨hndrest, hfresh⟩ := distinctLowerKeysB_tail hnd
    rw [ciGet_cons] at hsome
    by_cases hpk : lowEq p.1 k = true
    · rw [hpk] at hsome
      simp only [if_true] at hsome
      have hrest_none : ciGet rest k = none := by
        have hfind : List.find? (fun q => lowEq q.1 k) rest = none :=
          List.find?_eq_none.mpr (fun q hq hlq => by
            have h1 : pyLower q.1 = pyLower k := (lowEq_true_iff _ _).mp (by simpa using hlq)
            have h2 : pyLower p.1 = pyLower k := (lowEq_true_iff _ _).mp hpk
            exact hfresh q hq (h1.trans h2.symm))
        rw [ciGet, hfind]
        rfl
      have : ciUpdate h (p :: rest) = ciUpdate (ciSet h p.1 p.2) rest := rfl
      rw [this, ciGet_ciUpdate_of_none rest _ k hrest_none, ciGet_ciSet]
      have : lowEq k p.1 = true := by
        rw [lowEq_symm]
        exact hpk
      simp [this, ← hsome]
    · have hpkf : lowEq p.1 k = false := by simpa using hpk
      simp only [hpkf, Bool.false_eq_true, if_false] at hsome
      have : ciUpdate h (p :: rest) = ciUpdate (ciSet h p.1 p.2) rest := rfl
      rw [this]
      exact ciGet_ciUpdate_of_some rest _ k v hndrest hsome

/-! ## Claim C8 -/

/-- Claim C8: a construction-time custom header binding for a key (in
    particular one colliding case-insensitively with a default header)
    determines the session value for that key, replacing the default; and
    a per-call header binding for a key takes precedence over both the
    default and the construction-time binding in the issued request. -/
theorem c8_header_precedence (proxy : Option String)
    (cookies : Option (List (String × String))) (config : Option Config)
    (custom percall : Headers) (url : String) (params : Option (List (String × String)))
    (allow_redirects : Bool) (k v w : String)
    (hnd : distinctLowerKeysB custom = true) (hv : ciGet custom k = some v)
    (hnd2 : distinctLowerKeysB percall = true) (hw : ciGet percall k = some w) :
    ciGet (HTTPClient.init proxy (some custom) cookies config).sessionHeaders k = some v ∧
    ciGet (HTTPClient.mkGetRequest (HTTPClient.init proxy (some custom) cookies config) url
        params (some percall) allow_redirects).reqHeaders k = some w := by
  constructor
  · exact ciGet_ciUpdate_of_some custom _ k v hnd hv
  · exact ciGet_ciUpdate_of_some percall _ k w hnd2 hw

/-- Witness for C8: a custom User-Agent overrides the default on the
    session, and a per-call spelling overrides both in the issued
    request. -/
theorem c8_witness :
    distinctLowerKeysB [("user-agent", "ScannerX")] = true ∧
    ciGet [("user-agent", "ScannerX")] "User-Agent" = some "ScannerX" ∧
    ciGet (HTTPClient.init none (some [("user-agent", "ScannerX")]) none none).sessionHeaders
        "User-Agent" = some "ScannerX" ∧
    ciGet (HTTPClient.mkGetRequest
        (HTTPClient.init none (some [("user-agent", "ScannerX")]) none none) "http://t" none
        (some [("User-AGENT", "PerCallY")]) true).reqHeaders "User-Agent" = some "PerCallY" := by
  refine ⟨by decide, by decide, ?_, ?_⟩
  · exact (c8_header_precedence none none none [("user-agent", "ScannerX")]
      [("User-AGENT", "PerCallY")] "http://t" none true "User-Agent" "ScannerX" "PerCallY"
      (by decide) (by decide) (by decide) (by decide)).1
  · exact (c8_header_precedence none none none [("user-agent", "ScannerX")]
      [("User-AGENT", "PerCallY")] "http://t" none true "User-Agent" "ScannerX" "PerCallY"
      (by decide) (by decide) (by decide) (by decide)).2

/-! ## Lemmas about the report generator -/

theorem generate_html_no_valueError (env : Env) (results : List (String × JVal))
    (path : String) (fs : FS) (m : String) :
    (ReportGenerator.generate_html env results path fs).2 ≠ some (.valueError m) := by
  rcases hb : ReportGenerator.buildReportData env results with _ | rd
  · simp [ReportGenerator.generate_html, hb]
  · simp only [ReportGenerator.generate_html, hb]
    split_ifs <;> simp

theorem generate_json_no_valueError (env : Env) (results : List (String × JVal))
    (path : String) (fs : FS) (m : String) :
    (ReportGenerator.generate_json env results path fs).2 ≠ some (.valueError m) := by
  simp only [ReportGenerator.generate_json]
  split_ifs <;> simp

theorem generate_pdf_no_valueError (env : Env) (results : List (String × JVal))
    (path : String) (fs : FS) (m : String) :
    (ReportGenerator.generate_pdf env results path fs).2 ≠ some (.valueError m) := by
  simp only [ReportGenerator.generate_pdf]
  rcases he : (ReportGenerator.generate_html env results (pyReplace path ".pdf" ".html") fs).2
    with _ | e
  · rcases hc : env.pdfConvertOk with _ | _
    · simp [he, hc]
    · rcases hf : (ReportGenerator.generate_html env results
          (pyReplace path ".pdf" ".html") fs).1 (pyReplace path ".pdf" ".html") with _ | c
      · simp [he, hc, hf]
      · rcases hw : env.writable path with _ | _
        · simp [he, hc, hf, hw]
        · simp [he, hc, hf, hw]
  · rcases e with m' | _ | _
    · exact absurd he (generate_html_no_valueError env results _ fs m')
    · simp [he]
    · simp [he]

/-! ## Claim C3 -/

/-- Claim C3: generate with a format outside json, html, pdf raises the
    ValueError with the filesystem untouched (so nothing was created at
    the output path that was not there before), and the three supported
    formats never raise this format-validation failure. -/
theorem c3_unsupported_format_raises_before_io (env : Env) (results : List (String × JVal))
    (output_path format : String) (fs : FS)
    (h : format ∉ (["json", "html", "pdf"] : List String)) :
    ReportGenerator.generate env results output_path format fs =
      (fs, some (.valueError ("Unsupported format: " ++ format))) ∧
    ∀ fmt ∈ (["json", "html", "pdf"] : List String), ∀ m,
      (ReportGenerator.generate env results output_path fmt fs).2 ≠ some (.valueError m) := by
  constructor
  · have h1 : format ≠ "json" := fun he => h (by simp [he])
    have h2 : format ≠ "html" := fun he => h (by simp [he])
    have h3 : format ≠ "pdf" := fun he => h (by simp [he])
    simp [ReportGenerator.generate, h1, h2, h3]
  · intro fmt hm m
    simp only [List.mem_cons, List.not_mem_nil, or_false] at hm
    rcases hm with rfl | rfl | rfl
    · simpa [ReportGenerator.generate] using generate_json_no_valueError env results output_path fs m
    · simpa [ReportGenerator.generate] using generate_html_no_valueError env results output_path fs m
    · simpa [ReportGenerator.generate] using generate_pdf_no_valueError env results output_path fs m

/-- Witness for C3 at the format bogus. -/
theorem c3_witness :
    (("bogus" : String) ∉ (["json", "html", "pdf"] : List String)) ∧
    (ReportGenerator.generate ⟨fun _ => true, true, "T"⟩ [] "out.txt" "bogus" (fun _ => none) =
      ((fun _ => none), some (.valueError ("Unsupported format: " ++ "bogus"))) ∧
    ∀ fmt ∈ (["json", "html", "pdf"] : List String), ∀ m,
      (ReportGenerator.generate ⟨fun _ => true, true, "T"⟩ [] "out.txt" fmt
        (fun _ => none)).2 ≠ some (.valueError m)) :=
  ⟨by decide, c3_unsupported_format_raises_before_io ⟨fun _ => true, true, "T"⟩ [] "out.txt"
    "bogus" (fun _ => none) (by decide)⟩

/-! ## Claim C5 -/

/-- Claim C5 as stated is false on the code: the JSON and HTML writers
    have no exception handling, so a failing open/write propagates an
    OSError out of generate instead of being only logged; here the
    unwritable path makes the json call raise and no file appears. -/
theorem c5_counterexample :
    (ReportGenerator.generate ⟨fun _ => false, true, "T"⟩ [] "out.json" "json"
        (fun _ => none)).2 = some .osError ∧
    (ReportGenerator.generate ⟨fun _ => false, true, "T"⟩ [] "out.json" "json"
        (fun _ => none)).1 "out.json" = none :=
  ⟨rfl, rfl⟩

/-- Claim C5 amended: for the html and json formats, generate produces a
    file at the output path and raises nothing whenever the filesystem
    write succeeds (and the results are renderable); when the write
    fails, the underlying I/O error propagates to the caller rather than
    being only logged. -/
theorem c5_amended_write_failure_raises (env : Env) (results : List (String × JVal))
    (path : String) (fs : FS) (hw : env.writable path = true)
    (hb : (ReportGenerator.buildReportData env results).isSome = true) :
    ((ReportGenerator.generate env results path "json" fs).2 = none ∧
     (ReportGenerator.generate env results path "json" fs).1 path =
        some (dumps (.obj results))) ∧
    ((ReportGenerator.generate env results path "html" fs).2 = none ∧
     ∃ content, (ReportGenerator.generate env results path "html" fs).1 path = some content) ∧
    (∀ env' : Env, env'.writable path = false →
      ((ReportGenerator.generate env' results path "json" fs).2 = some .osError ∧
       (ReportGenerator.generate env' results path "json" fs).1 = fs) ∧
      ((ReportGenerator.buildReportData env' results).isSome = true →
        (ReportGenerator.generate env' results path "html" fs).2 = some .osError ∧
        (ReportGenerator.generate env' results path "html" fs).1 = fs)) := by
  obtain ⟨rd, hrd⟩ := Option.isSome_iff_exists.mp hb
  refine ⟨⟨?_, ?_⟩, ⟨?_, ?_⟩, ?_⟩
  · simp [ReportGenerator.generate, ReportGenerator.generate_json, hw]
  · simp [ReportGenerator.generate, ReportGenerator.generate_json, hw, setF]
  · simp [ReportGenerator.generate, ReportGenerator.generate_html, hrd, hw]
  · exact ⟨ReportGenerator.renderHtml rd,
      by simp [ReportGenerator.generate, ReportGenerator.generate_html, hrd, hw, setF]⟩
  · intro env' hw'
    refine ⟨⟨?_, ?_⟩, ?_⟩
    · simp [ReportGenerator.generate, ReportGenerator.generate_json, hw']
    · simp [ReportGenerator.generate, ReportGenerator.generate_json, hw']
    · intro hb'
      obtain ⟨rd', hrd'⟩ := Option.isSome_iff_exists.mp hb'
      constructor
      · simp [ReportGenerator.generate, ReportGenerator.generate_html, hrd', hw']
      · simp [ReportGenerator.generate, ReportGenerator.generate_html, hrd', hw']

/-- Witness for the amended C5 at a writable and an unwritable
    environment. -/
theorem c5_witness :
    ((ReportGenerator.generate ⟨fun _ => true, true, "T"⟩ [] "out" "json"
        (fun _ => none)).2 = none ∧
     (ReportGenerator.generate ⟨fun _ => true, true, "T"⟩ [] "out" "json"
        (fun _ => none)).1 "out" = some (dumps (.obj []))) ∧
    ((ReportGenerator.generate ⟨fun _ => true, true, "T"⟩ [] "out" "html"
        (fun _ => none)).2 = none ∧
     ∃ content, (ReportGenerator.generate ⟨fun _ => true, true, "T"⟩ [] "out" "html"
        (fun _ => none)).1 "out" = some content) ∧
    (∀ env' : Env, env'.writable "out" = false →
      ((ReportGenerator.generate env' [] "out" "json" (fun _ => none)).2 = some .osError ∧
       (ReportGenerator.generate env' [] "out" "json" (fun _ => none)).1 = (fun _ => none)) ∧
      ((ReportGenerator.buildReportData env' []).isSome = true →
        (ReportGenerator.generate env' [] "out" "html" (fun _ => none)).2 = some .osError ∧
        (ReportGenerator.generate env' [] "out" "html" (fun _ => none)).1 =
          (fun _ => none))) :=
  c5_amended_write_failure_raises ⟨fun _ => true, true, "T"⟩ [] "out" (fun _ => none) rfl
    (by decide)

/-! ## Claim C4 -/

/-- Claim C4 as stated is false on the code: the temporary HTML location
    is output_path.replace(.pdf, .html), which for an output path not
    containing .pdf is the output path itself; then a successful
    conversion writes the PDF to the output path and immediately unlinks
    that same path, so after a successful conversion no file exists at the
    output path at all. -/
theorem c4_counterexample :
    pyReplace "report" ".pdf" ".html" = "report" ∧
    (⟨fun _ => true, true, "T"⟩ : Env).pdfConvertOk = true ∧
    (ReportGenerator.generate ⟨fun _ => true, true, "T"⟩ [] "report" "pdf"
        (fun _ => none)).2 = none ∧
    (ReportGenerator.generate ⟨fun _ => true, true, "T"⟩ [] "report" "pdf"
        (fun _ => none)).1 "report" = none :=
  ⟨by decide, rfl, rfl, rfl⟩

/-- Claim C4 amended: generate with format pdf writes the HTML rendering
    to the path obtained from the output path by replacing every
    occurrence of .pdf with .html; provided that path differs from the
    output path (as it does for the intended something.pdf arguments), a
    successful conversion leaves the PDF at the output path and deletes
    the temporary HTML, while a failed conversion leaves the HTML at that
    adjacent path, only logs the failure, and raises nothing. -/
theorem c4_amended_pdf_fallback (env : Env) (results : List (String × JVal))
    (path : String) (fs : FS)
    (hw1 : env.writable (pyReplace path ".pdf" ".html") = true)
    (hw2 : env.writable path = true)
    (hb : (ReportGenerator.buildReportData env results).isSome = true)
    (hne : pyReplace path ".pdf" ".html" ≠ path) :
    (ReportGenerator.generate env results path "pdf" fs).2 = none ∧
    (env.pdfConvertOk = true →
      (∃ pdfContent, (ReportGenerator.generate env results path "pdf" fs).1 path =
          some pdfContent) ∧
      (ReportGenerator.generate env results path "pdf" fs).1
          (pyReplace path ".pdf" ".html") = none) ∧
    (env.pdfConvertOk = false →
      (∃ htmlContent, (ReportGenerator.generate env results path "pdf" fs).1
          (pyReplace path ".pdf" ".html") = some htmlContent) ∧
      (ReportGenerator.generate env results path "pdf" fs).1 path = fs path) := by
  obtain ⟨rd, hrd⟩ := Option.isSome_iff_exists.mp hb
  have hne' : path ≠ pyReplace path ".pdf" ".html" := fun he => hne he.symm
  have hhtml : ReportGenerator.generate_html env results (pyReplace path ".pdf" ".html") fs =
      (setF fs (pyReplace path ".pdf" ".html") (ReportGenerator.renderHtml rd), none) := by
    simp [ReportGenerator.generate_html, hrd, hw1]
  rcases hconv : env.pdfConvertOk with _ | _
  · refine ⟨?_, ⟨fun hcontr => absurd hcontr (by decide), fun _ => ⟨?_, ?_⟩⟩⟩
    · simp [ReportGenerator.generate, ReportGenerator.generate_pdf, hhtml, hconv]
    · exact ⟨ReportGenerator.renderHtml rd,
        by simp [ReportGenerator.generate, ReportGenerator.generate_pdf, hhtml, hconv, setF]⟩
    · simp [ReportGenerator.generate, ReportGenerator.generate_pdf, hhtml, hconv, setF, hne']
  · refine ⟨?_, ⟨fun _ => ⟨?_, ?_⟩, fun hcontr => absurd hcontr (by decide)⟩⟩
    · simp [ReportGenerator.generate, ReportGenerator.generate_pdf, hhtml, hconv, setF, hw2]
    · refine ⟨ReportGenerator.pdfConvert (ReportGenerator.renderHtml rd), ?_⟩
      simp [ReportGenerator.generate, ReportGenerator.generate_pdf, hhtml, hconv, setF, delF,
        hw2, hne']
    · simp [ReportGenerator.generate, ReportGenerator.generate_pdf, hhtml, hconv, setF, delF,
        hw2]

/-- Witness for the amended C4 at output path report.pdf with a
    succeeding conversion. -/
theorem c4_witness :
    (ReportGenerator.generate ⟨fun _ => true, true, "T"⟩ [] "report.pdf" "pdf"
        (fun _ => none)).2 = none ∧
    ((⟨fun _ => true, true, "T"⟩ : Env).pdfConvertOk = true →
      (∃ pdfContent, (ReportGenerator.generate ⟨fun _ => true, true, "T"⟩ [] "report.pdf" "pdf"
          (fun _ => none)).1 "report.pdf" = some pdfContent) ∧
      (ReportGenerator.generate ⟨fun _ => true, true, "T"⟩ [] "report.pdf" "pdf"
          (fun _ => none)).1 (pyReplace "report.pdf" ".pdf" ".html") = none) ∧
    ((⟨fun _ => true, true, "T"⟩ : Env).pdfConvertOk = false →
      (∃ htmlContent, (ReportGenerator.generate ⟨fun _ => true, true, "T"⟩ [] "report.pdf" "pdf"
          (fun _ => none)).1 (pyReplace "report.pdf" ".pdf" ".html") = some htmlContent) ∧
      (ReportGenerator.generate ⟨fun _ => true, true, "T"⟩ [] "report.pdf" "pdf"
          (fun _ => none)).1 "report.pdf" = (fun _ => none : FS) "report.pdf") :=
  c4_amended_pdf_fallback ⟨fun _ => true, true, "T"⟩ [] "report.pdf" (fun _ => none) rfl rfl
    (by decide) (by decide)

/-! ## Claim C10 -/

/-- Claim C10: the sort key of a vulnerability record is computed on the
    lowercased severity, so two spellings with the same case-folding rank
    equally; a record with no severity field at all defaults to info and
    ranks 4, not 5; only a present but unrecognized severity string ranks
    5. -/
theorem c10_severity_rank_case_insensitive_missing_info
    (fs gs : List (String × JVal)) (s t u : String)
    (hmiss : ReportGenerator.dictGet fs "severity" = none)
    (hcase : pyLower s = pyLower t)
    (hu : pyLower u ∉ (["critical", "high", "medium", "low", "info"] : List String)) :
    ReportGenerator.vulnKey (.obj (("severity", .str s) :: gs)) =
      ReportGenerator.vulnKey (.obj (("severity", .str t) :: gs)) ∧
    ReportGenerator.vulnKey (.obj fs) = some 4 ∧
    ReportGenerator.vulnKey (.obj (("severity", .str u) :: gs)) = some 5 := by
  refine ⟨?_, ?_, ?_⟩
  · simp [ReportGenerator.vulnKey, ReportGenerator.vulnSeverity, ReportGenerator.dictGet,
      List.find?, hcase]
  · simp only [ReportGenerator.vulnKey, ReportGenerator.vulnSeverity, hmiss]
    rfl
  · simp only [List.mem_cons, List.not_mem_nil, or_false, not_or] at hu
    obtain ⟨h1, h2, h3, h4, h5⟩ := hu
    have e1 : ("critical" == pyLower u) = false := beq_eq_false_iff_ne.mpr (Ne.symm h1)
    have e2 : ("high" == pyLower u) = false := beq_eq_false_iff_ne.mpr (Ne.symm h2)
    have e3 : ("medium" == pyLower u) = false := beq_eq_false_iff_ne.mpr (Ne.symm h3)
    have e4 : ("low" == pyLower u) = false := beq_eq_false_iff_ne.mpr (Ne.symm h4)
    have e5 : ("info" == pyLower u) = false := beq_eq_false_iff_ne.mpr (Ne.symm h5)
    simp [ReportGenerator.vulnKey, ReportGenerator.vulnSeverity, ReportGenerator.dictGet,
      ReportGenerator.alookup, ReportGenerator.severity_order, List.find?, e1, e2, e3, e4, e5]

/-- Witness for C10 at CRITICAL versus critical, a record without a
    severity, and the unrecognized severity wild. -/
theorem c10_witness :
    ReportGenerator.dictGet [("url", JVal.str "http://x")] "severity" = none ∧
    pyLower "CRITICAL" = pyLower "critical" ∧
    (pyLower "wild" ∉ (["critical", "high", "medium", "low", "info"] : List String)) ∧
    (ReportGenerator.vulnKey (.obj [("severity", .str "CRITICAL")]) =
       ReportGenerator.vulnKey (.obj [("severity", .str "critical")]) ∧
     ReportGenerator.vulnKey (.obj [("url", JVal.str "http://x")]) = some 4 ∧
     ReportGenerator.vulnKey (.obj [("severity", .str "wild")]) = some 5) :=
  ⟨rfl, by decide, by decide,
    c10_severity_rank_case_insensitive_missing_info [("url", JVal.str "http://x")] []
      "CRITICAL" "critical" "wild" rfl (by decide) (by decide)⟩

/-! ## Stability: the mergeSort embedding of Python sorted equals the
    insertion sort of the specification ordering -/

theorem orderedInsert_key_append {α : Type} (k : α → Nat) (a : α) :
    ∀ (l₁ l₂ : List α), (∀ b ∈ l₁, ¬ k a ≤ k b) → (∀ c ∈ l₂, k a ≤ k c) →
      List.orderedInsert (fun x y => k x ≤ k y) a (l₁ ++ l₂) = l₁ ++ a :: l₂
  | [], [], _, _ => by simp [List.orderedInsert]
  | [], c :: l₂, _, h₂ => by
    simp [List.orderedInsert, h₂ c (by simp)]
  | b :: l₁, l₂, h₁, h₂ => by
    have hb : ¬ k a ≤ k b := h₁ b (by simp)
    simp only [List.cons_append, List.orderedInsert, if_neg hb]
    exact congrArg (List.cons b)
      (orderedInsert_key_append k a l₁ l₂ (fun x hx => h₁ x (by simp [hx])) h₂)

/-- Python sorted with a key function is a stable sort; so is insertion
    sort with ties inserted after earlier elements: for a total preorder
    given by a key they agree, which is the stability content of claim
    C6. -/
theorem mergeSort_key_eq_insertionSort {α : Type} (k : α → Nat) :
    ∀ l : List α, l.mergeSort (fun a b => decide (k a ≤ k b)) =
      List.insertionSort (fun x y => k x ≤ k y) l
  | [] => by simp [List.insertionSort]
  | a :: l => by
    have trans : ∀ (x y z : α),
        decide (k x ≤ k y) → decide (k y ≤ k z) → decide (k x ≤ k z) := by
      intro x y z hxy hyz
      simp only [decide_eq_true_eq] at *
      omega
    have total : ∀ (x y : α), decide (k x ≤ k y) || decide (k y ≤ k x) := by
      intro x y
      rcases Nat.le_total (k x) (k y) with h | h <;> simp [h]
    obtain ⟨l₁, l₂, h₁, h₂, h₃⟩ := List.mergeSort_cons trans total a l
    simp only [List.insertionSort]
    rw [← mergeSort_key_eq_insertionSort k l, h₁, h₂]
    symm
    apply orderedInsert_key_append
    · intro b hb
      have hba := h₃ b hb
      simpa using hba
    · have s := List.sorted_mergeSort trans total (a :: l)
      rw [h₁] at s
      have hpc := (List.pairwise_append.mp s).2.1
      intro c hc
      have h := List.rel_of_pairwise_cons hpc hc
      simpa using h

theorem orderedInsert_congr {α : Type} (r r' : α → α → Prop) [DecidableRel r] [DecidableRel r']
    (a : α) : ∀ (l : List α), (∀ b ∈ l, r a b ↔ r' a b) →
      List.orderedInsert r a l = List.orderedInsert r' a l
  | [], _ => rfl
  | b :: l, h => by
    by_cases hr : r a b
    · simp [List.orderedInsert, hr, (h b (by simp)).mp hr]
    · have hr' : ¬ r' a b := fun hc => hr ((h b (by simp)).mpr hc)
      simp only [List.orderedInsert, if_neg hr, if_neg hr']
      rw [orderedInsert_congr r r' a l (fun c hc => h c (by simp [hc]))]

theorem insertionSort_congr {α : Type} (r r' : α → α → Prop) [DecidableRel r]
    [DecidableRel r'] :
    ∀ l : List α, (∀ x ∈ l, ∀ y ∈ l, r x y ↔ r' x y) →
      List.insertionSort r l = List.insertionSort r' l
  | [], _ => rfl
  | a :: l, h => by
    simp only [List.insertionSort]
    rw [insertionSort_congr r r' l (fun x hx y hy => h x (by simp [hx]) y (by simp [hy]))]
    apply orderedInsert_congr
    intro b hb
    have hbmem : b ∈ l := (List.perm_insertionSort r' l).mem_iff.mp hb
    exact h a (by simp) b (by simp [hbmem])

/-- For every x, the lookup the code makes in severity_order with default
    5 equals the rank of the specification wording. -/
theorem alookup_severity_eq_specRank (x : String) :
    (ReportGenerator.alookup ReportGenerator.severity_order x).getD 5 = specRankOfName x := by
  by_cases h1 : x = "critical"
  · subst h1; decide
  by_cases h2 : x = "high"
  · subst h2; decide
  by_cases h3 : x = "medium"
  · subst h3; decide
  by_cases h4 : x = "low"
  · subst h4; decide
  by_cases h5 : x = "info"
  · subst h5; decide
  have e1 : ("critical" == x) = false := beq_eq_false_iff_ne.mpr (Ne.symm h1)
  have e2 : ("high" == x) = false := beq_eq_false_iff_ne.mpr (Ne.symm h2)
  have e3 : ("medium" == x) = false := beq_eq_false_iff_ne.mpr (Ne.symm h3)
  have e4 : ("low" == x) = false := beq_eq_false_iff_ne.mpr (Ne.symm h4)
  have e5 : ("info" == x) = false := beq_eq_false_iff_ne.mpr (Ne.symm h5)
  simp [ReportGenerator.alookup, ReportGenerator.severity_order, List.find?, e1, e2, e3, e4, e5,
    specRankOfName, h1, h2, h3, h4, h5]

/-- On every record the code can sort (the key is defined), the key the
    code uses equals the severity rank of the specification. -/
theorem keyD_eq_specSeverityRank (v : JVal)
    (h : (ReportGenerator.vulnKey v).isSome = true) :
    ReportGenerator.keyD v = specSeverityRank v := by
  cases v with
  | obj fs =>
    rcases hg : ReportGenerator.dictGet fs "severity" with _ | jv
    · simp only [ReportGenerator.keyD, ReportGenerator.vulnKey, ReportGenerator.vulnSeverity,
        specSeverityRank, hg, Option.getD_none, Option.getD_some, Option.map_some']
      rw [alookup_severity_eq_specRank]
      rfl
    · cases jv with
      | str s =>
        simp only [ReportGenerator.keyD, ReportGenerator.vulnKey, ReportGenerator.vulnSeverity,
          specSeverityRank, hg, Option.getD_none, Option.getD_some, Option.map_some']
        exact alookup_severity_eq_specRank (pyLower s)
      | null => simp [ReportGenerator.vulnKey, ReportGenerator.vulnSeverity, hg] at h
      | bool b => simp [ReportGenerator.vulnKey, ReportGenerator.vulnSeverity, hg] at h
      | int n => simp [ReportGenerator.vulnKey, ReportGenerator.vulnSeverity, hg] at h
      | arr xs => simp [ReportGenerator.vulnKey, ReportGenerator.vulnSeverity, hg] at h
      | obj gs => simp [ReportGenerator.vulnKey, ReportGenerator.vulnSeverity, hg] at h
  | null => simp [ReportGenerator.vulnKey, ReportGenerator.vulnSeverity] at h
  | bool b => simp [ReportGenerator.vulnKey, ReportGenerator.vulnSeverity] at h
  | int n => simp [ReportGenerator.vulnKey, ReportGenerator.vulnSeverity] at h
  | str s => simp [ReportGenerator.vulnKey, ReportGenerator.vulnSeverity] at h
  | arr xs => simp [ReportGenerator.vulnKey, ReportGenerator.vulnSeverity] at h

/-! ## Claim C6 -/

/-- Claim C6: when the results carry a vulnerability list whose records
    the code can rank (string or missing severities) and the summary is
    computable, generate html writes the rendered report whose
    vulnerability sequence is exactly the input list stably sorted by the
    severity rank of the specification: equal ranks keep their input
    order. -/
theorem c6_html_vulnerabilities_stably_sorted (env : Env)
    (results : List (String × JVal)) (path : String) (fs : FS) (vs : List JVal)
    (hvs : (ReportGenerator.dictGet results "vulnerabilities").getD (.arr []) = .arr vs)
    (hk : ∀ v ∈ vs, (ReportGenerator.vulnKey v).isSome = true)
    (hsum : (ReportGenerator.generate_summary results).isSome = true)
    (hw : env.writable path = true) :
    ∃ rd : ReportGenerator.ReportData,
      ReportGenerator.buildReportData env results = some rd ∧
      (ReportGenerator.generate env results path "html" fs).2 = none ∧
      (ReportGenerator.generate env results path "html" fs).1 path =
        some (ReportGenerator.renderHtml rd) ∧
      rd.vulnerabilities = specStableSortBySeverity vs := by
  obtain ⟨summ, hsumm⟩ := Option.isSome_iff_exists.mp hsum
  have hsort : ReportGenerator.sort_vulnerabilities vs = some (vs.mergeSort
      (fun a b => decide (ReportGenerator.keyD a ≤ ReportGenerator.keyD b))) := by
    unfold ReportGenerator.sort_vulnerabilities
    rw [if_pos hk]
  have hrd : ReportGenerator.buildReportData env results = some
      { title := "Deep Eye Security Assessment Report"
        generated_date := env.now
        target := (ReportGenerator.dictGet results "target").getD .null
        scan_duration := (ReportGenerator.dictGet results "duration").getD .null
        summary := summ
        vulnerabilities := vs.mergeSort
          (fun a b => decide (ReportGenerator.keyD a ≤ ReportGenerator.keyD b))
        severity_counts := (ReportGenerator.dictGet results "severity_summary").getD (.obj [])
        urls_scanned := (ReportGenerator.dictGet results "urls_crawled").getD (.int 0)
        reconnaissance := (ReportGenerator.dictGet results "reconnaissance").getD (.obj []) } := by
    simp [ReportGenerator.buildReportData, hvs, hsort, hsumm]
  refine ⟨_, hrd, ?_, ?_, ?_⟩
  · simp [ReportGenerator.generate, ReportGenerator.generate_html, hrd, hw]
  · simp [ReportGenerator.generate, ReportGenerator.generate_html, hrd, hw, setF]
  · show vs.mergeSort (fun a b => decide (ReportGenerator.keyD a ≤ ReportGenerator.keyD b)) =
      specStableSortBySeverity vs
    rw [mergeSort_key_eq_insertionSort ReportGenerator.keyD vs]
    unfold specStableSortBySeverity
    apply insertionSort_congr
    intro x hx y hy
    rw [keyD_eq_specSeverityRank x (hk x hx), keyD_eq_specSeverityRank y (hk y hy)]

/-- Witness for C6 at a three-record list with a tie between two low
    records, an uppercase CRITICAL, and a record without a severity. -/
theorem c6_witness :
    ((ReportGenerator.dictGet
        [("vulnerabilities", JVal.arr [JVal.obj [("severity", JVal.str "low"), ("id", JVal.int 1)],
          JVal.obj [("severity", JVal.str "CRITICAL")],
          JVal.obj [("severity", JVal.str "low"), ("id", JVal.int 2)]])]
        "vulnerabilities").getD (.arr []) = JVal.arr
          [JVal.obj [("severity", JVal.str "low"), ("id", JVal.int 1)],
           JVal.obj [("severity", JVal.str "CRITICAL")],
           JVal.obj [("severity", JVal.str "low"), ("id", JVal.int 2)]]) ∧
    (∃ rd : ReportGenerator.ReportData,
      ReportGenerator.buildReportData ⟨fun _ => true, true, "T"⟩
        [("vulnerabilities", JVal.arr [JVal.obj [("severity", JVal.str "low"), ("id", JVal.int 1)],
          JVal.obj [("severity", JVal.str "CRITICAL")],
          JVal.obj [("severity", JVal.str "low"), ("id", JVal.int 2)]])] = some rd ∧
      (ReportGenerator.generate ⟨fun _ => true, true, "T"⟩
        [("vulnerabilities", JVal.arr [JVal.obj [("severity", JVal.str "low"), ("id", JVal.int 1)],
          JVal.obj [("severity", JVal.str "CRITICAL")],
          JVal.obj [("severity", JVal.str "low"), ("id", JVal.int 2)]])] "report.html" "html"
        (fun _ => none)).2 = none ∧
      (ReportGenerator.generate ⟨fun _ => true, true, "T"⟩
        [("vulnerabilities", JVal.arr [JVal.obj [("severity", JVal.str "low"), ("id", JVal.int 1)],
          JVal.obj [("severity", JVal.str "CRITICAL")],
          JVal.obj [("severity", JVal.str "low"), ("id", JVal.int 2)]])] "report.html" "html"
        (fun _ => none)).1 "report.html" = some (ReportGenerator.renderHtml rd) ∧
      rd.vulnerabilities = specStableSortBySeverity
        [JVal.obj [("severity", JVal.str "low"), ("id", JVal.int 1)],
         JVal.obj [("severity", JVal.str "CRITICAL")],
         JVal.obj [("severity", JVal.str "low"), ("id", JVal.int 2)]]) :=
  ⟨rfl, c6_html_vulnerabilities_stably_sorted ⟨fun _ => true, true, "T"⟩
    [("vulnerabilities", JVal.arr [JVal.obj [("severity", JVal.str "low"), ("id", JVal.int 1)],
      JVal.obj [("severity", JVal.str "CRITICAL")],
      JVal.obj [("severity", JVal.str "low"), ("id", JVal.int 2)]])] "report.html"
    (fun _ => none)
    [JVal.obj [("severity", JVal.str "low"), ("id", JVal.int 1)],
     JVal.obj [("severity", JVal.str "CRITICAL")],
     JVal.obj [("severity", JVal.str "low"), ("id", JVal.int 2)]]
    rfl (by decide) (by decide) rfl⟩

/-! ## Round trip of the JSON printer and parser (claim C7) -/

theorem skipWs_cons_of_ws {c : Char} (cs : List Char) (h : isWs c = true) :
    skipWs (c :: cs) = skipWs cs := by
  simp [skipWs, h]

theorem skipWs_cons_of_not {c : Char} (cs : List Char) (h : isWs c = false) :
    skipWs (c :: cs) = c :: cs := by
  simp [skipWs, h]

theorem skipWs_indent (n : Nat) (cs : List Char) :
    skipWs (indentChars n ++ cs) = skipWs cs := by
  induction n with
  | zero => rfl
  | succ n ih =>
    rw [show indentChars (n + 1) = ' ' :: indentChars n from rfl, List.cons_append,
      skipWs_cons_of_ws _ (by decide), ih]

theorem skipWs_idem (cs : List Char) : skipWs (skipWs cs) = skipWs cs := by
  induction cs with
  | nil => rfl
  | cons c cs ih =>
    cases hc : isWs c
    · rw [skipWs_cons_of_not cs hc, skipWs_cons_of_not cs hc]
    · rw [skipWs_cons_of_ws cs hc, ih]

theorem parseVal_congr (fuel : Nat) (cs₁ cs₂ : List Char) (h : skipWs cs₁ = skipWs cs₂) :
    parseVal fuel cs₁ = parseVal fuel cs₂ := by
  cases fuel with
  | zero => rfl
  | succ f =>
    simp only [parseVal]
    rw [h]

theorem parseItems_congr (fuel : Nat) (cs₁ cs₂ : List Char) (h : skipWs cs₁ = skipWs cs₂) :
    parseItems fuel cs₁ = parseItems fuel cs₂ := by
  cases fuel with
  | zero => rfl
  | succ f =>
    simp only [parseItems]
    rw [parseVal_congr f cs₁ cs₂ h]

theorem parseFields_congr (fuel : Nat) (cs₁ cs₂ : List Char) (h : skipWs cs₁ = skipWs cs₂) :
    parseFields fuel cs₁ = parseFields fuel cs₂ := by
  cases fuel with
  | zero => rfl
  | succ f =>
    simp only [parseFields]
    rw [h]

theorem stripPre_append : ∀ (p cs : List Char), stripPre p (p ++ cs) = some cs
  | [], _ => rfl
  | c :: p, cs => by simp [stripPre, stripPre_append p cs]

theorem isDigitC_digitChar (d : Nat) : isDigitC (digitChar d) = true := by
  rcases d with _|_|_|_|_|_|_|_|_|_|d <;> first | decide | rfl

theorem toNat_digitChar (d : Nat) (h : d < 10) : (digitChar d).toNat - 48 = d := by
  interval_cases d <;> decide

/-- Character facts about a decimal digit needed to route the parser. -/
theorem digit_char_facts (c : Char) (h : isDigitC c = true) :
    isWs c = false ∧ c ≠ 'n' ∧ c ≠ 't' ∧ c ≠ 'f' ∧ c ≠ '"' ∧ c ≠ '[' ∧ c ≠ lbrace ∧
      c ≠ '-' ∧ c ≠ ']' ∧ c ≠ rbrace := by
  simp only [isDigitC, Bool.and_eq_true, decide_eq_true_eq] at h
  refine ⟨?_, ?_, ?_, ?_, ?_, ?_, ?_, ?_, ?_, ?_⟩
  · by_contra hw
    simp only [Bool.not_eq_false, isWs, Bool.or_eq_true, decide_eq_true_eq] at hw
    rcases hw with ((h1 | h1) | h1) | h1 <;> subst h1 <;> revert h <;> decide
  all_goals intro he
  all_goals subst he
  all_goals revert h
  all_goals decide

theorem natCharsAux_digits : ∀ (fuel n : Nat), ∀ c ∈ natCharsAux fuel n, isDigitC c = true
  | 0, _, c, hc => by simp [natCharsAux] at hc
  | fuel + 1, n, c, hc => by
    by_cases hn : n = 0
    · simp [natCharsAux, hn] at hc
    · rw [natCharsAux, if_neg hn] at hc
      rcases List.mem_append.mp hc with hm | hm
      · exact natCharsAux_digits fuel (n / 10) c hm
      · simp only [List.mem_singleton] at hm
        subst hm
        exact isDigitC_digitChar _

theorem natChars_digits (n : Nat) : ∀ c ∈ natChars n, isDigitC c = true := by
  intro c hc
  by_cases hn : n = 0
  · simp [natChars, hn] at hc
    subst hc
    decide
  · rw [natChars, if_neg hn] at hc
    exact natCharsAux_digits (n + 1) n c hc

theorem natChars_ne_nil (n : Nat) : natChars n ≠ [] := by
  by_cases hn : n = 0
  · simp [natChars, hn]
  · rw [natChars, if_neg hn, natCharsAux, if_neg hn]
    simp

theorem foldl_natCharsAux : ∀ (fuel n acc : Nat), n < fuel →
    List.foldl (fun a c => a * 10 + (c.toNat - 48)) acc (natCharsAux fuel n) =
      acc * tenPowLen fuel n + n
  | 0, n, acc, h => absurd h (by omega)
  | fuel + 1, n, acc, h => by
    by_cases hn : n = 0
    · subst hn
      simp [natCharsAux, tenPowLen]
    · have hlt : n / 10 < fuel := by
        have h1 : n / 10 < n := Nat.div_lt_self (Nat.pos_of_ne_zero hn) (by omega)
        omega
      rw [natCharsAux, if_neg hn, List.foldl_append,
        foldl_natCharsAux fuel (n / 10) acc hlt]
      simp only [List.foldl_cons, List.foldl_nil]
      rw [toNat_digitChar _ (Nat.mod_lt _ (by omega))]
      rw [tenPowLen, if_neg hn]
      have e : acc * (10 * tenPowLen fuel (n / 10)) =
          acc * tenPowLen fuel (n / 10) * 10 := by ring
      have hmd : n % 10 + 10 * (n / 10) = n := Nat.mod_add_div n 10
      omega

theorem foldl_natChars (n : Nat) :
    List.foldl (fun a c => a * 10 + (c.toNat - 48)) 0 (natChars n) = n := by
  by_cases hn : n = 0
  · subst hn
    decide
  · rw [natChars, if_neg hn, foldl_natCharsAux (n + 1) n 0 (by omega)]
    omega

theorem digitsRun_append : ∀ (ds : List Char) (acc : Nat) (rest : List Char),
    (∀ c ∈ ds, isDigitC c = true) → noDigitHead rest →
    digitsRun acc (ds ++ rest) =
      (List.foldl (fun a c => a * 10 + (c.toNat - 48)) acc ds, rest)
  | [], acc, rest, _, hrest => by
    cases rest with
    | nil => rfl
    | cons c cs =>
      have hc : isDigitC c = false := hrest
      simp [digitsRun, hc]
  | d :: ds, acc, rest, hds, hrest => by
    have hd : isDigitC d = true := hds d (by simp)
    rw [List.cons_append, digitsRun, if_pos hd, List.foldl_cons]
    exact digitsRun_append ds _ rest (fun c hc => hds c (by simp [hc])) hrest

theorem parseNum_natChars (m : Nat) (rest : List Char) (h : noDigitHead rest) :
    parseNum (natChars m ++ rest) = some (.int (m : Int), rest) := by
  obtain ⟨d, ds, he⟩ := List.exists_cons_of_ne_nil (natChars_ne_nil m)
  have hd : isDigitC d = true := natChars_digits m d (by rw [he]; simp)
  have hds : ∀ c ∈ ds, isDigitC c = true := fun c hc =>
    natChars_digits m c (by rw [he]; simp [hc])
  obtain ⟨-, -, -, -, -, -, -, hminus, -, -⟩ := digit_char_facts d hd
  have hval : List.foldl (fun a c => a * 10 + (c.toNat - 48)) (d.toNat - 48) ds = m := by
    have hfold : List.foldl (fun a c => a * 10 + (c.toNat - 48)) (d.toNat - 48) ds =
        List.foldl (fun a c => a * 10 + (c.toNat - 48)) 0 (d :: ds) := by
      simp
    rw [hfold, ← he, foldl_natChars]
  rw [he, List.cons_append]
  simp only [parseNum, if_neg hminus, if_pos hd, digitsRun_append ds _ rest hds h, hval]

theorem parseNum_neg_natChars (m : Nat) (rest : List Char) (h : noDigitHead rest) :
    parseNum ('-' :: (natChars (m + 1) ++ rest)) = some (.int (Int.negSucc m), rest) := by
  obtain ⟨d, ds, he⟩ := List.exists_cons_of_ne_nil (natChars_ne_nil (m + 1))
  have hd : isDigitC d = true := natChars_digits (m + 1) d (by rw [he]; simp)
  have hds : ∀ c ∈ ds, isDigitC c = true := fun c hc =>
    natChars_digits (m + 1) c (by rw [he]; simp [hc])
  have hval : List.foldl (fun a c => a * 10 + (c.toNat - 48)) (d.toNat - 48) ds = m + 1 := by
    have hfold : List.foldl (fun a c => a * 10 + (c.toNat - 48)) (d.toNat - 48) ds =
        List.foldl (fun a c => a * 10 + (c.toNat - 48)) 0 (d :: ds) := by
      simp
    rw [hfold, ← he, foldl_natChars]
  have hns : Int.negSucc m = -((m + 1 : Nat) : Int) := by
    rw [Int.negSucc_eq]
    push_cast
    ring
  rw [he, List.cons_append, hns]
  simp only [parseNum, if_pos rfl, hd, if_true, digitsRun_append ds _ rest hds h, hval]

theorem hexDigitVal_hexDig (d : Nat) (h : d < 16) : hexDigitVal (hexDig d) = some d := by
  interval_cases d <;> decide

theorem hex4_value (n : Nat) (h : n < 65536) :
    4096 * (n / 4096 % 16) + 256 * (n / 256 % 16) + 16 * (n / 16 % 16) + n % 16 = n := by
  omega

theorem parseStrBody_escList : ∀ (s rest : List Char), (∀ c ∈ s, bmpChar c = true) →
    parseStrBody (escList s ++ '"' :: rest) = some (s, rest)
  | [], rest, _ => by
    rw [show escList [] ++ '"' :: rest = '"' :: rest from rfl, parseStrBody.eq_def]
    simp
  | c :: s, rest, h => by
    have hbmp : bmpChar c = true := h c (by simp)
    have ih := parseStrBody_escList s rest (fun x hx => h x (by simp [hx]))
    have hassoc : escList (c :: s) ++ '"' :: rest = escChar c ++ (escList s ++ '"' :: rest) := by
      simp [escList]
    rw [hassoc]
    by_cases h1 : c = '"'
    · subst h1
      simp only [escChar, if_pos rfl, List.cons_append, List.nil_append]
      rw [parseStrBody.eq_def]
      simp [escDecode, ih]
    by_cases h2 : c = '\\'
    · subst h2
      rw [show escChar '\\' = ['\\', '\\'] from by decide, List.cons_append,
        List.cons_append, List.nil_append, parseStrBody.eq_def]
      simp [escDecode, ih]
    by_cases h3 : c = '\n'
    · subst h3
      rw [show escChar '\n' = ['\\', 'n'] from by decide, List.cons_append,
        List.cons_append, List.nil_append, parseStrBody.eq_def]
      simp [escDecode, ih]
    by_cases h4 : c = '\r'
    · subst h4
      rw [show escChar '\r' = ['\\', 'r'] from by decide, List.cons_append,
        List.cons_append, List.nil_append, parseStrBody.eq_def]
      simp [escDecode, ih]
    by_cases h5 : c = '\t'
    · subst h5
      rw [show escChar '\t' = ['\\', 't'] from by decide, List.cons_append,
        List.cons_append, List.nil_append, parseStrBody.eq_def]
      simp [escDecode, ih]
    by_cases h6 : c.toNat = 8
    · have hc : Char.ofNat 8 = c := by rw [← h6, Char.ofNat_toNat]
      have hesc : escChar c = ['\\', 'b'] := by
        simp [escChar, h1, h2, h3, h4, h5, h6]
      rw [hesc, List.cons_append, List.cons_append, List.nil_append, parseStrBody.eq_def]
      simp [escDecode, ih, hc]
      exact hc
    by_cases h7 : c.toNat = 12
    · have hc : Char.ofNat 12 = c := by rw [← h7, Char.ofNat_toNat]
      have hesc : escChar c = ['\\', 'f'] := by
        simp [escChar, h1, h2, h3, h4, h5, h6, h7]
      rw [hesc, List.cons_append, List.cons_append, List.nil_append, parseStrBody.eq_def]
      simp [escDecode, ih, hc]
      exact hc
    by_cases h8 : c.toNat < 32 ∨ 126 < c.toNat
    · have hlt : c.toNat < 65536 := by simpa [bmpChar] using hbmp
      have hesc : escChar c = '\\' :: 'u' :: hex4 c.toNat := by
        simp [escChar, h1, h2, h3, h4, h5, h6, h7, h8, hlt]
      rw [hesc]
      have e1 := hexDigitVal_hexDig (c.toNat / 4096 % 16) (Nat.mod_lt _ (by omega))
      have e2 := hexDigitVal_hexDig (c.toNat / 256 % 16) (Nat.mod_lt _ (by omega))
      have e3 := hexDigitVal_hexDig (c.toNat / 16 % 16) (Nat.mod_lt _ (by omega))
      have e4 := hexDigitVal_hexDig (c.toNat % 16) (Nat.mod_lt _ (by omega))
      have hvalid : Nat.isValidChar (4096 * (c.toNat / 4096 % 16) + 256 * (c.toNat / 256 % 16) +
          16 * (c.toNat / 16 % 16) + c.toNat % 16) := by
        rw [hex4_value c.toNat hlt]
        exact c.valid
      have hchar : Char.ofNat (4096 * (c.toNat / 4096 % 16) + 256 * (c.toNat / 256 % 16) +
          16 * (c.toNat / 16 % 16) + c.toNat % 16) = c := by
        rw [hex4_value c.toNat hlt, Char.ofNat_toNat]
      rw [show '\\' :: 'u' :: hex4 c.toNat ++ (escList s ++ '"' :: rest) =
        '\\' :: 'u' :: (hexDig (c.toNat / 4096 % 16) :: hexDig (c.toNat / 256 % 16) ::
          hexDig (c.toNat / 16 % 16) :: hexDig (c.toNat % 16) ::
            (escList s ++ '"' :: rest)) from by simp [hex4], parseStrBody.eq_def]
      simp [e1, e2, e3, e4, hvalid, hchar, ih]
    · have hesc : escChar c = [c] := by
        simp [escChar, h1, h2, h3, h4, h5, h6, h7, h8]
      rw [hesc, List.cons_append, List.nil_append, parseStrBody.eq_def]
      simp [h1, h2, ih]

theorem sizeJV_pos (v : JVal) : 1 ≤ sizeJV v := by
  cases v <;> simp [sizeJV]

theorem sizeItems_pos (x : JVal) (xs : List JVal) : 1 ≤ sizeItems (x :: xs) := by
  simp only [sizeItems]
  omega

theorem sizeFields_pos (f : String × JVal) (fs : List (String × JVal)) :
    1 ≤ sizeFields (f :: fs) := by
  obtain ⟨k, v⟩ := f
  simp only [sizeFields]
  omega

/-- Every printed value starts with a non-whitespace character that is
    neither a closing bracket nor a closing brace. -/
theorem printJ_head (lvl : Nat) (v : JVal) : ∃ c cs, printJ lvl v = c :: cs ∧
    isWs c = false ∧ c ≠ ']' ∧ c ≠ rbrace := by
  cases v with
  | null => exact ⟨'n', ['u', 'l', 'l'], rfl, by decide, by decide, by decide⟩
  | bool b =>
    cases b
    · exact ⟨'f', ['a', 'l', 's', 'e'], rfl, by decide, by decide, by decide⟩
    · exact ⟨'t', ['r', 'u', 'e'], rfl, by decide, by decide, by decide⟩
  | int n =>
    cases n with
    | ofNat m =>
      obtain ⟨d, ds, he⟩ := List.exists_cons_of_ne_nil (natChars_ne_nil m)
      have hd : isDigitC d = true := natChars_digits m d (by rw [he]; simp)
      obtain ⟨hws, -, -, -, -, -, -, -, hb1, hb2⟩ := digit_char_facts d hd
      exact ⟨d, ds, by simp [printJ, he], hws, hb1, hb2⟩
    | negSucc m =>
      exact ⟨'-', natChars (m + 1), by simp [printJ], by decide, by decide, by decide⟩
  | str s => exact ⟨'"', escList s.data ++ ['"'], by simp [printJ], by decide, by decide, by decide⟩
  | arr xs =>
    cases xs with
    | nil => exact ⟨'[', [']'], by simp [printJ], by decide, by decide, by decide⟩
    | cons x xs =>
      exact ⟨'[', '\n' :: (printItems lvl (x :: xs) ++ '\n' :: (indentChars (2 * lvl) ++ [']'])),
        by simp [printJ], by decide, by decide, by decide⟩
  | obj fs =>
    cases fs with
    | nil => exact ⟨lbrace, [rbrace], by simp [printJ], by decide, by decide, by decide⟩
    | cons f fs =>
      exact ⟨lbrace, '\n' :: (printFields lvl (f :: fs) ++ '\n' :: (indentChars (2 * lvl) ++ [rbrace])),
        by simp [printJ], by decide, by decide, by decide⟩

/-- The printed elements of a nonempty array, after whitespace, start
    with the head character of the first printed element. -/
theorem skipWs_printItems_head (lvl : Nat) (x : JVal) (xs : List JVal) (tail : List Char) :
    ∃ c cs', skipWs (printItems lvl (x :: xs) ++ tail) = c :: cs' ∧ isWs c = false ∧
      c ≠ ']' ∧ c ≠ rbrace := by
  obtain ⟨c, cs, he, hws, hb1, hb2⟩ := printJ_head (lvl + 1) x
  cases xs with
  | nil =>
    refine ⟨c, cs ++ tail, ?_, hws, hb1, hb2⟩
    rw [show printItems lvl [x] = indentChars (2 * (lvl + 1)) ++ printJ (lvl + 1) x from rfl,
      List.append_assoc, skipWs_indent, he, List.cons_append, skipWs_cons_of_not _ hws]
  | cons y ys =>
    refine ⟨c, cs ++ (',' :: '\n' :: printItems lvl (y :: ys) ++ tail), ?_, hws, hb1, hb2⟩
    rw [show printItems lvl (x :: y :: ys) = indentChars (2 * (lvl + 1)) ++ printJ (lvl + 1) x ++
        ',' :: '\n' :: printItems lvl (y :: ys) from rfl]
    rw [List.append_assoc, List.append_assoc, skipWs_indent, he, List.cons_append,
      skipWs_cons_of_not _ hws]

/-- The printed members of a nonempty object, after whitespace, start
    with the double quote of the first key. -/
theorem skipWs_printFields_head (lvl : Nat) (f : String × JVal) (fs : List (String × JVal))
    (tail : List Char) :
    ∃ cs', skipWs (printFields lvl (f :: fs) ++ tail) = '"' :: cs' := by
  obtain ⟨k, v⟩ := f
  cases fs with
  | nil =>
    refine ⟨(escList k.data ++ '"' :: ':' :: ' ' :: printJ (lvl + 1) v) ++ tail, ?_⟩
    rw [show printFields lvl [(k, v)] = indentChars (2 * (lvl + 1)) ++
        '"' :: (escList k.data ++ '"' :: ':' :: ' ' :: printJ (lvl + 1) v) from rfl]
    rw [List.append_assoc, skipWs_indent, List.cons_append, skipWs_cons_of_not _ (by decide)]
  | cons g gs =>
    refine ⟨(escList k.data ++ '"' :: ':' :: ' ' :: printJ (lvl + 1) v) ++
      (',' :: '\n' :: printFields lvl (g :: gs) ++ tail), ?_⟩
    rw [show printFields lvl ((k, v) :: g :: gs) = indentChars (2 * (lvl + 1)) ++
        '"' :: (escList k.data ++ '"' :: ':' :: ' ' :: printJ (lvl + 1) v) ++
        ',' :: '\n' :: printFields lvl (g :: gs) from rfl]
    rw [List.append_assoc, List.append_assoc, skipWs_indent, List.cons_append,
      skipWs_cons_of_not _ (by decide)]

/-- Joint fuel induction: parsing the printed form of a well-formed value,
    of nonempty array elements, and of nonempty object members, consumes
    exactly that printed form and returns what was printed. -/
theorem parse_print_fuel (fuel : Nat) :
    (∀ (v : JVal) (lvl : Nat) (rest cs : List Char), sizeJV v ≤ fuel → wfJ v = true →
      noDigitHead rest → skipWs cs = skipWs (printJ lvl v ++ rest) →
      parseVal fuel cs = some (v, rest)) ∧
    ((∀ (x : JVal) (xs : List JVal) (lvl : Nat) (rest cs : List Char),
      sizeItems (x :: xs) ≤ fuel → wfItems (x :: xs) = true → noDigitHead rest →
      skipWs cs = skipWs (printItems lvl (x :: xs) ++ '\n' ::
        (indentChars (2 * lvl) ++ (']' :: rest))) →
      parseItems fuel cs = some (x :: xs, rest)) ∧
    (∀ (g : String × JVal) (fs' : List (String × JVal)) (lvl : Nat) (rest cs : List Char),
      sizeFields (g :: fs') ≤ fuel → wfFields (g :: fs') = true → noDigitHead rest →
      skipWs cs = skipWs (printFields lvl (g :: fs') ++ '\n' ::
        (indentChars (2 * lvl) ++ (rbrace :: rest))) →
      parseFields fuel cs = some (g :: fs', rest))) := by
  induction fuel with
  | zero =>
    refine ⟨?_, ?_, ?_⟩
    · intro v lvl rest cs hsz hwf hrest hskip
      have := sizeJV_pos v
      omega
    · intro x xs lvl rest cs hsz hwf hrest hskip
      have := sizeItems_pos x xs
      omega
    · intro g fs' lvl rest cs hsz hwf hrest hskip
      obtain ⟨k, v⟩ := g
      have := sizeFields_pos (k, v) fs'
      omega
  | succ f ih =>
    obtain ⟨ihV, ihI, ihF⟩ := ih
    refine ⟨?_, ?_, ?_⟩
    · intro v lvl rest cs hsz hwf hrest hskip
      cases v with
      | null =>
        rw [show printJ lvl .null ++ rest = 'n' :: ('u' :: 'l' :: 'l' :: rest) from rfl,
          skipWs_cons_of_not _ (by decide)] at hskip
        have hstrip : stripPre "ull".data ('u' :: 'l' :: 'l' :: rest) = some rest :=
          stripPre_append "ull".data rest
        simp only [parseVal]
        rw [hskip]
        simp [hstrip]
      | bool b =>
        cases b
        · rw [show printJ lvl (.bool false) ++ rest = 'f' :: ('a' :: 'l' :: 's' :: 'e' :: rest)
              from rfl, skipWs_cons_of_not _ (by decide)] at hskip
          have hstrip : stripPre "alse".data ('a' :: 'l' :: 's' :: 'e' :: rest) = some rest :=
            stripPre_append "alse".data rest
          simp only [parseVal]
          rw [hskip]
          simp [hstrip]
        · rw [show printJ lvl (.bool true) ++ rest = 't' :: ('r' :: 'u' :: 'e' :: rest) from rfl,
            skipWs_cons_of_not _ (by decide)] at hskip
          have hstrip : stripPre "rue".data ('r' :: 'u' :: 'e' :: rest) = some rest :=
            stripPre_append "rue".data rest
          simp only [parseVal]
          rw [hskip]
          simp [hstrip]
      | int n =>
        cases n with
        | ofNat m =>
          rw [show printJ lvl (.int (.ofNat m)) ++ rest = natChars m ++ rest from rfl] at hskip
          obtain ⟨d, ds, he⟩ := List.exists_cons_of_ne_nil (natChars_ne_nil m)
          have hd : isDigitC d = true := natChars_digits m d (by rw [he]; simp)
          obtain ⟨hws, hn, ht, hf2, hq, hbr, hlb, hminus, -, -⟩ := digit_char_facts d hd
          rw [he, List.cons_append, skipWs_cons_of_not _ hws] at hskip
          have hback : d :: (ds ++ rest) = natChars m ++ rest := by
            rw [he, List.cons_append]
          simp only [parseVal]
          rw [hskip]
          simp [hn, ht, hf2, hq, hbr, hlb, hd, hback, parseNum_natChars m rest hrest]
        | negSucc m =>
          rw [show printJ lvl (.int (.negSucc m)) ++ rest = '-' :: (natChars (m + 1) ++ rest)
              from rfl, skipWs_cons_of_not _ (by decide)] at hskip
          have hlb : ('-' : Char) ≠ lbrace := by decide
          simp only [parseVal]
          rw [hskip]
          simp [hlb, parseNum_neg_natChars m rest hrest]
      | str s =>
        rw [show printJ lvl (.str s) ++ rest = '"' :: (escList s.data ++ '"' :: rest) from by
          simp [printJ], skipWs_cons_of_not _ (by decide)] at hskip
        have hs : parseStrBody (escList s.data ++ '"' :: rest) = some (s.data, rest) := by
          apply parseStrBody_escList
          intro c hc
          have hwf' : s.data.all bmpChar = true := by simpa [wfJ, wfStr] using hwf
          exact List.all_eq_true.mp hwf' c hc
        simp only [parseVal]
        rw [hskip]
        simp [hs]
      | arr xs =>
        cases xs with
        | nil =>
          rw [show printJ lvl (.arr []) ++ rest = '[' :: (']' :: rest) from rfl,
            skipWs_cons_of_not _ (by decide)] at hskip
          have h1 : skipWs (']' :: rest) = ']' :: rest := skipWs_cons_of_not _ (by decide)
          simp only [parseVal]
          rw [hskip]
          simp [h1]
        | cons x xs' =>
          rw [show printJ lvl (.arr (x :: xs')) ++ rest = '[' :: ('\n' ::
              (printItems lvl (x :: xs') ++ '\n' :: (indentChars (2 * lvl) ++ (']' :: rest))))
              from by simp [printJ], skipWs_cons_of_not _ (by decide)] at hskip
          obtain ⟨hc, hcs, hhd, hwsF, hne1, hne2⟩ := skipWs_printItems_head lvl x xs'
            ('\n' :: (indentChars (2 * lvl) ++ (']' :: rest)))
          have hr1 : skipWs ('\n' :: (printItems lvl (x :: xs') ++ '\n' ::
              (indentChars (2 * lvl) ++ (']' :: rest)))) = hc :: hcs := by
            rw [skipWs_cons_of_ws _ (by decide), hhd]
          have hitems : parseItems f (hc :: hcs) = some (x :: xs', rest) := by
            apply ihI x xs' lvl rest
            · simp only [sizeJV] at hsz
              omega
            · simpa [wfJ] using hwf
            · exact hrest
            · rw [← hhd, skipWs_idem]
          simp only [parseVal]
          rw [hskip]
          simp [hr1, hne1, hitems]
      | obj fs =>
        cases fs with
        | nil =>
          rw [show printJ lvl (.obj []) ++ rest = lbrace :: (rbrace :: rest) from rfl,
            skipWs_cons_of_not _ (by decide)] at hskip
          have h1 : skipWs (rbrace :: rest) = rbrace :: rest := skipWs_cons_of_not _ (by decide)
          have d1 : ¬ (lbrace = 'n') := by decide
          have d2 : ¬ (lbrace = 't') := by decide
          have d3 : ¬ (lbrace = 'f') := by decide
          have d4 : ¬ (lbrace = '"') := by decide
          have d5 : ¬ (lbrace = '[') := by decide
          simp only [parseVal]
          rw [hskip]
          simp [h1, d1, d2, d3, d4, d5]
        | cons g fs' =>
          rw [show printJ lvl (.obj (g :: fs')) ++ rest = lbrace :: ('\n' ::
              (printFields lvl (g :: fs') ++ '\n' :: (indentChars (2 * lvl) ++ (rbrace :: rest))))
              from by simp [printJ], skipWs_cons_of_not _ (by decide)] at hskip
          obtain ⟨hcs, hhd⟩ := skipWs_printFields_head lvl g fs'
            ('\n' :: (indentChars (2 * lvl) ++ (rbrace :: rest)))
          have hr1 : skipWs ('\n' :: (printFields lvl (g :: fs') ++ '\n' ::
              (indentChars (2 * lvl) ++ (rbrace :: rest)))) = '"' :: hcs := by
            rw [skipWs_cons_of_ws _ (by decide), hhd]
          have hfields : parseFields f ('"' :: hcs) = some (g :: fs', rest) := by
            apply ihF g fs' lvl rest
            · simp only [sizeJV] at hsz
              omega
            · have hwf' : allDistinct ((g :: fs').map Prod.fst) = true ∧
                  wfFields (g :: fs') = true := by simpa [wfJ] using hwf
              exact hwf'.2
            · exact hrest
            · rw [← hhd, skipWs_idem]
          have hnq : ¬ (('"' : Char) = rbrace) := by decide
          have d1 : ¬ (lbrace = 'n') := by decide
          have d2 : ¬ (lbrace = 't') := by decide
          have d3 : ¬ (lbrace = 'f') := by decide
          have d4 : ¬ (lbrace = '"') := by decide
          have d5 : ¬ (lbrace = '[') := by decide
          simp only [parseVal]
          rw [hskip]
          simp [hr1, hfields, hnq, d1, d2, d3, d4, d5]
    · intro x xs lvl rest cs hsz hwf hrest hskip
      have hwf' : wfJ x = true ∧ wfItems xs = true := by simpa [wfItems] using hwf
      have hwx : wfJ x = true := hwf'.1
      cases xs with
      | nil =>
        have hv : parseVal f cs = some (x, '\n' :: (indentChars (2 * lvl) ++ (']' :: rest))) := by
          apply ihV x (lvl + 1)
          · simp only [sizeItems] at hsz
            omega
          · exact hwx
          · exact (by decide : isDigitC '\n' = false)
          · rw [hskip, show printItems lvl [x] = indentChars (2 * (lvl + 1)) ++ printJ (lvl + 1) x
              from rfl, List.append_assoc, skipWs_indent]
        have hr1 : skipWs ('\n' :: (indentChars (2 * lvl) ++ (']' :: rest))) = ']' :: rest := by
          rw [skipWs_cons_of_ws _ (by decide), skipWs_indent, skipWs_cons_of_not _ (by decide)]
        simp only [parseItems]
        rw [hv]
        simp [hr1]
      | cons y ys =>
        have hv : parseVal f cs = some (x, ',' :: ('\n' :: (printItems lvl (y :: ys) ++ '\n' ::
            (indentChars (2 * lvl) ++ (']' :: rest))))) := by
          apply ihV x (lvl + 1)
          · simp only [sizeItems] at hsz
            omega
          · exact hwx
          · exact (by decide : isDigitC ',' = false)
          · rw [hskip, show printItems lvl (x :: y :: ys) ++ '\n' ::
              (indentChars (2 * lvl) ++ (']' :: rest)) = indentChars (2 * (lvl + 1)) ++
              (printJ (lvl + 1) x ++ ',' :: ('\n' :: (printItems lvl (y :: ys) ++ '\n' ::
                (indentChars (2 * lvl) ++ (']' :: rest))))) from by
              rw [show printItems lvl (x :: y :: ys) = indentChars (2 * (lvl + 1)) ++
                printJ (lvl + 1) x ++ ',' :: '\n' :: printItems lvl (y :: ys) from rfl]
              simp, skipWs_indent]
        have hr1 : skipWs (',' :: ('\n' :: (printItems lvl (y :: ys) ++ '\n' ::
            (indentChars (2 * lvl) ++ (']' :: rest))))) = ',' :: ('\n' ::
            (printItems lvl (y :: ys) ++ '\n' :: (indentChars (2 * lvl) ++ (']' :: rest)))) :=
          skipWs_cons_of_not _ (by decide)
        have hrec : parseItems f ('\n' :: (printItems lvl (y :: ys) ++ '\n' ::
            (indentChars (2 * lvl) ++ (']' :: rest)))) = some (y :: ys, rest) := by
          apply ihI y ys lvl rest
          · simp only [sizeItems] at hsz ⊢
            omega
          · exact hwf'.2
          · exact hrest
          · rw [skipWs_cons_of_ws _ (by decide)]
        simp only [parseItems]
        rw [hv]
        simp [hr1, hrec]
    · intro g fs' lvl rest cs hsz hwf hrest hskip
      obtain ⟨k, v⟩ := g
      have hw3 : (wfStr k = true ∧ wfJ v = true) ∧ wfFields fs' = true := by
        simpa [wfFields] using hwf
      obtain ⟨⟨hwk, hwv⟩, hwfs⟩ := hw3
      have hketa : (⟨k.data⟩ : String) = k := rfl
      have hbmpk : ∀ c ∈ k.data, bmpChar c = true := fun c hc =>
        List.all_eq_true.mp (by simpa [wfStr] using hwk) c hc
      cases fs' with
      | nil =>
        have hskip' : skipWs cs = '"' :: (escList k.data ++ '"' :: (':' :: (' ' ::
            (printJ (lvl + 1) v ++ '\n' :: (indentChars (2 * lvl) ++ (rbrace :: rest)))))) := by
          rw [hskip, show printFields lvl [(k, v)] = indentChars (2 * (lvl + 1)) ++
            ('"' :: (escList k.data ++ '"' :: ':' :: ' ' :: printJ (lvl + 1) v)) from rfl]
          rw [List.append_assoc, skipWs_indent, List.cons_append,
            skipWs_cons_of_not _ (by decide)]
          simp
        have hkey : parseStrBody (escList k.data ++ '"' :: (':' :: (' ' ::
            (printJ (lvl + 1) v ++ '\n' :: (indentChars (2 * lvl) ++ (rbrace :: rest)))))) =
            some (k.data, ':' :: (' ' :: (printJ (lvl + 1) v ++ '\n' ::
              (indentChars (2 * lvl) ++ (rbrace :: rest))))) :=
          parseStrBody_escList k.data _ hbmpk
        have hval : parseVal f (' ' :: (printJ (lvl + 1) v ++ '\n' :: (indentChars (2 * lvl) ++
            (rbrace :: rest)))) =
            some (v, '\n' :: (indentChars (2 * lvl) ++ (rbrace :: rest))) := by
          apply ihV v (lvl + 1)
          · simp only [sizeFields] at hsz
            omega
          · exact hwv
          · exact (by decide : isDigitC '\n' = false)
          · rw [skipWs_cons_of_ws _ (by decide)]
        have hr2 : skipWs (':' :: (' ' :: (printJ (lvl + 1) v ++ '\n' ::
            (indentChars (2 * lvl) ++ (rbrace :: rest))))) = ':' :: (' ' ::
            (printJ (lvl + 1) v ++ '\n' :: (indentChars (2 * lvl) ++ (rbrace :: rest)))) :=
          skipWs_cons_of_not _ (by decide)
        have hr4 : skipWs ('\n' :: (indentChars (2 * lvl) ++ (rbrace :: rest))) =
            rbrace :: rest := by
          rw [skipWs_cons_of_ws _ (by decide), skipWs_indent, skipWs_cons_of_not _ (by decide)]
        have hnc : rbrace ≠ ',' := by decide
        simp only [parseFields]
        rw [hskip']
        simp [hkey, hr2, hval, hr4, hnc, hketa]
      | cons g2 gs =>
        have hskip' : skipWs cs = '"' :: (escList k.data ++ '"' :: (':' :: (' ' ::
            (printJ (lvl + 1) v ++ ',' :: ('\n' :: (printFields lvl (g2 :: gs) ++ '\n' ::
              (indentChars (2 * lvl) ++ (rbrace :: rest)))))))) := by
          rw [hskip, show printFields lvl ((k, v) :: g2 :: gs) = indentChars (2 * (lvl + 1)) ++
            ('"' :: (escList k.data ++ '"' :: ':' :: ' ' :: printJ (lvl + 1) v)) ++
            ',' :: '\n' :: printFields lvl (g2 :: gs) from rfl]
          rw [List.append_assoc, List.append_assoc, skipWs_indent, List.cons_append,
            skipWs_cons_of_not _ (by decide)]
          simp
        have hkey : parseStrBody (escList k.data ++ '"' :: (':' :: (' ' ::
            (printJ (lvl + 1) v ++ ',' :: ('\n' :: (printFields lvl (g2 :: gs) ++ '\n' ::
              (indentChars (2 * lvl) ++ (rbrace :: rest)))))))) =
            some (k.data, ':' :: (' ' :: (printJ (lvl + 1) v ++ ',' :: ('\n' ::
              (printFields lvl (g2 :: gs) ++ '\n' ::
                (indentChars (2 * lvl) ++ (rbrace :: rest))))))) :=
          parseStrBody_escList k.data _ hbmpk
        have hval : parseVal f (' ' :: (printJ (lvl + 1) v ++ ',' :: ('\n' ::
            (printFields lvl (g2 :: gs) ++ '\n' ::
              (indentChars (2 * lvl) ++ (rbrace :: rest)))))) =
            some (v, ',' :: ('\n' :: (printFields lvl (g2 :: gs) ++ '\n' ::
              (indentChars (2 * lvl) ++ (rbrace :: rest))))) := by
          apply ihV v (lvl + 1)
          · simp only [sizeFields] at hsz
            omega
          · exact hwv
          · exact (by decide : isDigitC ',' = false)
          · rw [skipWs_cons_of_ws _ (by decide)]
        have hr2 : skipWs (':' :: (' ' :: (printJ (lvl + 1) v ++ ',' :: ('\n' ::
            (printFields lvl (g2 :: gs) ++ '\n' ::
              (indentChars (2 * lvl) ++ (rbrace :: rest))))))) = ':' :: (' ' ::
            (printJ (lvl + 1) v ++ ',' :: ('\n' :: (printFields lvl (g2 :: gs) ++ '\n' ::
              (indentChars (2 * lvl) ++ (rbrace :: rest)))))) :=
          skipWs_cons_of_not _ (by decide)
        have hr4 : skipWs (',' :: ('\n' :: (printFields lvl (g2 :: gs) ++ '\n' ::
            (indentChars (2 * lvl) ++ (rbrace :: rest))))) = ',' :: ('\n' ::
            (printFields lvl (g2 :: gs) ++ '\n' ::
              (indentChars (2 * lvl) ++ (rbrace :: rest)))) :=
          skipWs_cons_of_not _ (by decide)
        have hrec : parseFields f ('\n' :: (printFields lvl (g2 :: gs) ++ '\n' ::
            (indentChars (2 * lvl) ++ (rbrace :: rest)))) = some (g2 :: gs, rest) := by
          apply ihF g2 gs lvl rest
          · simp only [sizeFields] at hsz ⊢
            omega
          · exact hwfs
          · exact hrest
          · rw [skipWs_cons_of_ws _ (by decide)]
        simp only [parseFields]
        rw [hskip']
        simp [hkey, hr2, hval, hr4, hrec, hketa]
/-- Parsing the printed form of a well-formed value consumes exactly that
    printed form and returns the value, for any input that agrees with it
    up to leading whitespace and any non-digit continuation. -/
theorem parseVal_printJ (v : JVal) (lvl fuel : Nat) (rest cs : List Char)
    (hsz : sizeJV v ≤ fuel) (hwf : wfJ v = true) (hrest : noDigitHead rest)
    (hskip : skipWs cs = skipWs (printJ lvl v ++ rest)) :
    parseVal fuel cs = some (v, rest) :=
  (parse_print_fuel fuel).1 v lvl rest cs hsz hwf hrest hskip

/-- The node count of a value is at most the length of its printed form
    (each node contributes at least one character), jointly with array
    elements and object members; stated with a fuel bound for induction. -/
theorem size_le_print_length (n : Nat) :
    (∀ (v : JVal) (lvl : Nat), sizeJV v ≤ n → sizeJV v ≤ (printJ lvl v).length) ∧
    ((∀ (x : JVal) (xs : List JVal) (lvl : Nat), sizeItems (x :: xs) ≤ n →
      sizeItems (x :: xs) ≤ (printItems lvl (x :: xs)).length) ∧
    (∀ (g : String × JVal) (fs' : List (String × JVal)) (lvl : Nat),
      sizeFields (g :: fs') ≤ n →
      sizeFields (g :: fs') ≤ (printFields lvl (g :: fs')).length)) := by
  induction n with
  | zero =>
    refine ⟨?_, ?_, ?_⟩
    · intro v lvl hsz
      have := sizeJV_pos v
      omega
    · intro x xs lvl hsz
      have := sizeItems_pos x xs
      omega
    · intro g fs' lvl hsz
      obtain ⟨k, v⟩ := g
      have := sizeFields_pos (k, v) fs'
      omega
  | succ f ih =>
    obtain ⟨ihV, ihI, ihF⟩ := ih
    refine ⟨?_, ?_, ?_⟩
    · intro v lvl hsz
      cases v with
      | null => simp [sizeJV, printJ]
      | bool b => cases b <;> simp [sizeJV, printJ]
      | int n2 =>
        cases n2 with
        | ofNat m =>
          have h2 : 0 < (natChars m).length := List.length_pos.mpr (natChars_ne_nil m)
          simp only [sizeJV, printJ]
          omega
        | negSucc m =>
          simp only [sizeJV, printJ, List.length_cons]
          omega
      | str s =>
        simp only [sizeJV, printJ, List.length_cons]
        omega
      | arr xs =>
        cases xs with
        | nil => simp [sizeJV, sizeItems, printJ]
        | cons x xs' =>
          have hi := ihI x xs' lvl (by simp only [sizeJV] at hsz; omega)
          simp only [sizeJV, printJ, List.length_cons, List.length_append,
            List.length_singleton, indentChars, List.length_replicate]
          omega
      | obj fs =>
        cases fs with
        | nil => simp [sizeJV, sizeFields, printJ]
        | cons g fs' =>
          have hi := ihF g fs' lvl (by simp only [sizeJV] at hsz; omega)
          simp only [sizeJV, printJ, List.length_cons, List.length_append,
            List.length_singleton, indentChars, List.length_replicate]
          omega
    · intro x xs lvl hsz
      cases xs with
      | nil =>
        have hv := ihV x (lvl + 1) (by simp only [sizeItems] at hsz; omega)
        simp only [sizeItems, printItems, List.length_append, indentChars,
          List.length_replicate]
        omega
      | cons y ys =>
        have hv := ihV x (lvl + 1) (by simp only [sizeItems] at hsz; omega)
        have hr := ihI y ys lvl (by simp only [sizeItems] at hsz ⊢; omega)
        simp only [sizeItems] at hr ⊢
        simp only [printItems, List.length_append, List.length_cons, indentChars,
          List.length_replicate]
        omega
    · intro g fs' lvl hsz
      obtain ⟨k, v⟩ := g
      cases fs' with
      | nil =>
        have hv := ihV v (lvl + 1) (by simp only [sizeFields] at hsz; omega)
        simp only [sizeFields, printFields, List.length_append, List.length_cons,
          indentChars, List.length_replicate]
        omega
      | cons g2 gs =>
        have hv := ihV v (lvl + 1) (by simp only [sizeFields] at hsz; omega)
        have hr := ihF g2 gs lvl (by simp only [sizeFields] at hsz ⊢; omega)
        simp only [sizeFields] at hr ⊢
        simp only [printFields, List.length_append, List.length_cons, indentChars,
          List.length_replicate]
        omega

/-- json.load applied to the exact text json.dump(v, f, indent=2) wrote
    recovers the well-formed value v. -/
theorem parseJson_dumps (v : JVal) (hwf : wfJ v = true) :
    parseJson (dumps v) = some v := by
  have hlen : sizeJV v ≤ (printJ 0 v).length :=
    (size_le_print_length (sizeJV v)).1 v 0 le_rfl
  have hp : parseVal ((printJ 0 v).length + 1) (printJ 0 v) = some (v, []) := by
    apply parseVal_printJ v 0 ((printJ 0 v).length + 1) []
    · omega
    · exact hwf
    · exact trivial
    · rw [List.append_nil]
  simp only [parseJson]
  rw [show (dumps v).data = printJ 0 v from rfl, hp]
  simp [skipWs]

/-! ## Claim C7 -/

/-- C7: generate(results, path, json) writes json.dump(results, indent=2)
    to the output path (raising nothing when the path is writable), and
    json.load of that written text yields the original results structure
    with every field intact, for any results dict whose strings are
    basic-multilingual-plane and whose keys are distinct at each level. -/
theorem c7_json_round_trip (env : Env) (results : List (String × JVal)) (path : String)
    (fs : FS) (hw : env.writable path = true) (hwf : wfJ (.obj results) = true) :
    ((ReportGenerator.generate env results path "json" fs).1 path =
        some (dumps (.obj results)) ∧
     (ReportGenerator.generate env results path "json" fs).2 = none) ∧
    parseJson (dumps (.obj results)) = some (.obj results) := by
  refine ⟨⟨?_, ?_⟩, parseJson_dumps _ hwf⟩
  · simp [ReportGenerator.generate, ReportGenerator.generate_json, hw, setF]
  · simp [ReportGenerator.generate, ReportGenerator.generate_json, hw]

/-- C7 at a concrete results structure. -/
theorem c7_witness :
    ((ReportGenerator.generate ⟨fun _ => true, true, "T"⟩
        [("target", .str "example.com"),
         ("vulnerabilities", .arr [.obj [("severity", .str "high"), ("url", .str "u")]]),
         ("total", .int 1)] "out.json" "json" (fun _ => none)).1 "out.json" =
      some (dumps (.obj [("target", .str "example.com"),
         ("vulnerabilities", .arr [.obj [("severity", .str "high"), ("url", .str "u")]]),
         ("total", .int 1)])) ∧
     (ReportGenerator.generate ⟨fun _ => true, true, "T"⟩
        [("target", .str "example.com"),
         ("vulnerabilities", .arr [.obj [("severity", .str "high"), ("url", .str "u")]]),
         ("total", .int 1)] "out.json" "json" (fun _ => none)).2 = none) ∧
    parseJson (dumps (.obj [("target", .str "example.com"),
         ("vulnerabilities", .arr [.obj [("severity", .str "high"), ("url", .str "u")]]),
         ("total", .int 1)])) =
      some (.obj [("target", .str "example.com"),
         ("vulnerabilities", .arr [.obj [("severity", .str "high"), ("url", .str "u")]]),
         ("total", .int 1)]) :=
  c7_json_round_trip ⟨fun _ => true, true, "T"⟩
    [("target", .str "example.com"),
     ("vulnerabilities", .arr [.obj [("severity", .str "high"), ("url", .str "u")]]),
     ("total", .int 1)] "out.json" (fun _ => none) rfl (by decide)

end DeepEye
